import Mathlib

/-!
# HandHaptics: feedback dispatcher and command encoder

A shallow embedding of `CPP_DLL/HapticSoftware.h` and `CPP_DLL/HapticSoftware.cpp`.

* Bytes (`uint8_t`) are natural numbers below 256.
* Time stamps (`double`) and the numeric value of a `float` are rationals: all
  arithmetic is exact.
* `getTimeAsDouble()` is an input: every operation that samples the clock takes
  the sample as the argument `currentTime`.
* A pointer that may be null is an `Option`; reading through it is `deref`, which
  fails on `none`.  Operations that read through pointers return `Except Fault`.
-/

namespace HapticSoftware

/-! ## Data model (HapticSoftware.h) -/

/-- The enum `FeedbackLocation : uint8_t`.  A value of the enum is any value of the
underlying byte; five of them are named. -/
structure FeedbackLocation where
  code : Fin 256
deriving DecidableEq

def FeedbackLocation.Thumb : FeedbackLocation := ⟨1⟩
def FeedbackLocation.Index : FeedbackLocation := ⟨2⟩
def FeedbackLocation.Middle : FeedbackLocation := ⟨4⟩
def FeedbackLocation.Ring : FeedbackLocation := ⟨8⟩
def FeedbackLocation.Pinky : FeedbackLocation := ⟨16⟩

/-- The enum `HapticHand`. -/
inductive HapticHand where
  | Left
  | Right
  | Both
deriving DecidableEq

/-- A C++ `float` object.  `val` is the number it denotes (arithmetic on it is exact),
`bits` is its 32-bit IEEE-754 object representation, read as an unsigned integer.
The two fields are not tied to each other: what is proved for every pair holds in
particular for the pairs that IEEE-754 relates. -/
structure float where
  val : ℚ
  bits : Nat
  bits_lt : bits < 4294967296

/-- The struct `HandFeedbackConfig`. -/
structure HandFeedbackConfig where
  Hand : HapticHand
  Location : FeedbackLocation
  NormalizedStrength : float
  Duration : float

/-- Modelled from the spec: the vendor serial device `serialib`
(`vendor/seriallib/serialib.h`) is not among the sources.  Only what the wrapper uses
is kept: whether the device is open, and the byte sequences handed to `writeBytes`,
oldest first. -/
structure serialib where
  deviceOpened : Bool
  written : List (List Nat)

/-- The constructor `serialib()`. -/
def serialib.new : serialib := { deviceOpened := false, written := [] }

/-- The call `openDevice(...)`; `result` is the status the device reports (1 on success). -/
def serialib.openDevice (d : serialib) (result : Int) : serialib :=
  if result = 1 then { d with deviceOpened := true } else d

/-- The call `closeDevice()`. -/
def serialib.closeDevice (d : serialib) : serialib := { d with deviceOpened := false }

/-- The call `writeBytes(data, size)` with `size` the whole buffer. -/
def serialib.writeBytes (d : serialib) (data : List Nat) : serialib :=
  { d with written := d.written ++ [data] }

/-- The struct `SerialPortWrapper::Impl`. -/
structure SerialPortWrapper.Impl where
  serial : serialib
  portName : String
  baudRate : Nat
  dataBits : Nat

/-- The class `SerialPortWrapper`.  The field `open` is spelled `open_`.  `writeCalls` is
not a member of the class: it records the buffers with which `Write` was called,
oldest first, and no operation reads it. -/
structure SerialPortWrapper where
  pImpl : SerialPortWrapper.Impl
  name : String
  open_ : Bool
  writeCalls : List (List Nat)

/-- The class `HapticHandFeedback`: two nullable port pointers and two
`std::map<FeedbackLocation, double>`, each a finite partial function. -/
structure HapticHandFeedback where
  leftHandPort : Option SerialPortWrapper
  rightHandPort : Option SerialPortWrapper
  fingerToSendTimeRight : FeedbackLocation → Option ℚ
  fingerToSendTimeLeft : FeedbackLocation → Option ℚ

/-- The only way an operation can go wrong: reading through a null pointer. -/
inductive Fault where
  | nullDereference
deriving DecidableEq

/-- Reading through a port pointer. -/
def deref (p : Option SerialPortWrapper) : Except Fault SerialPortWrapper :=
  match p with
  | some w => .ok w
  | none => .error .nullDereference

/-! ## std::map operations used by the dispatcher -/

/-- The call `m.count(k)`. -/
def map_count (m : FeedbackLocation → Option ℚ) (k : FeedbackLocation) : Nat :=
  if (m k).isSome then 1 else 0

/-- The expression `m[k]` read as a value: a missing key is inserted with `0.0` first. -/
def map_index (m : FeedbackLocation → Option ℚ) (k : FeedbackLocation) :
    (FeedbackLocation → Option ℚ) × ℚ :=
  match m k with
  | some v => (m, v)
  | none => (Function.update m k (some 0), 0)

/-- The statement `m[k] = v`. -/
def map_assign (m : FeedbackLocation → Option ℚ) (k : FeedbackLocation) (v : ℚ) :
    FeedbackLocation → Option ℚ :=
  Function.update (map_index m k).1 k (some v)

/-! ## HapticSoftware.cpp -/

/-- The template `clamp_value`, whose body is `max(min, min(value, max))`; the
parameters `min` and `max` are spelled `lo` and `hi`.  The two-argument `max` and `min`
it calls are not defined in the sources; they are the greater and the lesser of their
two arguments. -/
def clamp_value {T : Type} [LinearOrder T] (value lo hi : T) : T :=
  max lo (min value hi)

/-- The conversion `static_cast<uint8_t>(x)` of a floating value: the fractional part is
discarded (rounding toward zero) and the result is kept to 8 bits. -/
def static_cast_uint8 (x : ℚ) : Nat :=
  (Int.tdiv x.num (x.den : Int) % 256).toNat

/-- The constructor `SerialPortWrapper(portName, baudRate, dataBits)`. -/
def SerialPortWrapper.new (portName : String) (baudRate dataBits : Nat) : SerialPortWrapper :=
  { pImpl := { serial := serialib.new, portName := portName, baudRate := baudRate,
               dataBits := dataBits },
    name := portName, open_ := false, writeCalls := [] }

/-- The method `SerialPortWrapper::Open`; `errorOpening` is what `openDevice` returns. -/
def SerialPortWrapper.Open (p : SerialPortWrapper) (errorOpening : Int) :
    SerialPortWrapper × Bool :=
  let p1 := { p with pImpl := { p.pImpl with serial := p.pImpl.serial.openDevice errorOpening } }
  if errorOpening ≠ 1 then (p1, false)
  else ({ p1 with open_ := true }, true)

/-- The method `SerialPortWrapper::Close`. -/
def SerialPortWrapper.Close (p : SerialPortWrapper) : SerialPortWrapper :=
  if p.open_ then
    { p with pImpl := { p.pImpl with serial := p.pImpl.serial.closeDevice }, open_ := false }
  else p

/-- The method `SerialPortWrapper::IsOpen`. -/
def SerialPortWrapper.IsOpen (p : SerialPortWrapper) : Bool := p.open_

/-- The method `SerialPortWrapper::Write`: it returns at once when `open` is set, and
calls `writeBytes` otherwise. -/
def SerialPortWrapper.Write (p : SerialPortWrapper) (data : List Nat) : SerialPortWrapper :=
  let p1 := { p with writeCalls := p.writeCalls ++ [data] }
  if p1.open_ then p1
  else { p1 with pImpl := { p1.pImpl with serial := p1.pImpl.serial.writeBytes data } }

/-- The constructor `HapticHandFeedback()`. -/
def HapticHandFeedback.new : HapticHandFeedback :=
  { leftHandPort := none, rightHandPort := none,
    fingerToSendTimeRight := fun _ => none, fingerToSendTimeLeft := fun _ => none }

/-- The lambda `init_map` of `Initialize`. -/
def init_map (currentTime : ℚ) (map : FeedbackLocation → Option ℚ) :
    FeedbackLocation → Option ℚ :=
  let map := map_assign map FeedbackLocation.Thumb currentTime
  let map := map_assign map FeedbackLocation.Index currentTime
  let map := map_assign map FeedbackLocation.Middle currentTime
  let map := map_assign map FeedbackLocation.Ring currentTime
  let map := map_assign map FeedbackLocation.Pinky currentTime
  map

/-- The method `HapticHandFeedback::Initialize`.  The port ids are `uint16_t`.  The old
wrappers are deleted and two new ones constructed; nothing else is done to them. -/
def HapticHandFeedback.Initialize (s : HapticHandFeedback)
    (leftHandComPort rightHandComPort : Nat) (currentTime : ℚ) : HapticHandFeedback :=
  { leftHandPort := some (SerialPortWrapper.new ("COM" ++ toString (leftHandComPort % 65536)) 9600 8),
    rightHandPort := some (SerialPortWrapper.new ("COM" ++ toString (rightHandComPort % 65536)) 9600 8),
    fingerToSendTimeRight := init_map currentTime s.fingerToSendTimeRight,
    fingerToSendTimeLeft := init_map currentTime s.fingerToSendTimeLeft }

/-- The method `HapticHandFeedback::Close`. -/
def HapticHandFeedback.Close (s : HapticHandFeedback) : Except Fault HapticHandFeedback :=
  let afterLeft : Except Fault HapticHandFeedback :=
    if s.leftHandPort.isSome then
      match deref s.leftHandPort with
      | .error e => .error e
      | .ok p =>
        let _closed := p.Close
        .ok { s with leftHandPort := none }
    else .ok s
  match afterLeft with
  | .error e => .error e
  | .ok s1 =>
    if s1.rightHandPort.isSome then
      match deref s1.rightHandPort with
      | .error e => .error e
      | .ok p =>
        let _closed := p.Close
        .ok { s1 with rightHandPort := none }
    else .ok s1

/-- Byte `i` of the union `duration_bytes` after `duration_bytes.f = f`: the object
representation in native order, which is little-endian on the target. -/
def duration_bytes (f : float) (i : Nat) : Nat :=
  (f.bits >>> (8 * i)) % 256

/-- The vector `data` that `SendFeedback` builds and passes to `port.Write`. -/
def SendFeedback_data (config : HandFeedbackConfig) : List Nat :=
  let clampedStrength : ℚ := clamp_value config.NormalizedStrength.val 0 1
  let location : Nat := config.Location.code.val
  let strength : Nat := static_cast_uint8 (255 * clampedStrength)
  let data : List Nat := []
  let data := data ++ [location]
  let data := data ++ [strength]
  let data := [0, 1, 2, 3].foldl (fun d i => d ++ [duration_bytes config.Duration i]) data
  let data := data ++ [0]
  let data := data ++ [0]
  data

/-- The method `HapticHandFeedback::SendFeedback`. -/
def SendFeedback (port : SerialPortWrapper) (config : HandFeedbackConfig) : SerialPortWrapper :=
  port.Write (SendFeedback_data config)

/-- The condition `m.count(k) && m[k] > currentTime`, with the map as the evaluation
leaves it: `m[k]` is evaluated only when the count is non-zero. -/
def cooldown_test (m : FeedbackLocation → Option ℚ) (k : FeedbackLocation) (currentTime : ℚ) :
    (FeedbackLocation → Option ℚ) × Bool :=
  if map_count m k ≠ 0 then
    let r := map_index m k
    (r.1, decide (r.2 > currentTime))
  else (m, false)

/-- The second `if` block of `ApplyFeedback` (the right hand), up to the end of the method. -/
def ApplyFeedback_right (s : HapticHandFeedback) (currentTime : ℚ)
    (config : HandFeedbackConfig) : Except Fault HapticHandFeedback :=
  if config.Hand = HapticHand.Right ∨ config.Hand = HapticHand.Both then
    if s.rightHandPort.isNone then .ok s
    else
      match deref s.rightHandPort with
      | .error e => .error e
      | .ok p =>
        if !p.IsOpen then .ok s
        else
          let t := cooldown_test s.fingerToSendTimeRight config.Location currentTime
          if t.2 then .ok { s with fingerToSendTimeRight := t.1 }
          else
            let m := map_assign t.1 config.Location (currentTime + config.Duration.val - 1 / 20)
            match deref s.rightHandPort with
            | .error e => .error e
            | .ok q =>
              .ok { s with fingerToSendTimeRight := m, rightHandPort := some (SendFeedback q config) }
  else .ok s

/-- The method `HapticHandFeedback::ApplyFeedback`.  Each `return` of the first block
ends the method; only its last branch, and a request that does not name the left hand,
go on to the second block. -/
def HapticHandFeedback.ApplyFeedback (s : HapticHandFeedback) (currentTime : ℚ)
    (config : HandFeedbackConfig) : Except Fault HapticHandFeedback :=
  if config.Hand = HapticHand.Left ∨ config.Hand = HapticHand.Both then
    if s.leftHandPort.isNone then .ok s
    else
      match deref s.leftHandPort with
      | .error e => .error e
      | .ok p =>
        if !p.IsOpen then .ok s
        else
          let t := cooldown_test s.fingerToSendTimeLeft config.Location currentTime
          if t.2 then .ok { s with fingerToSendTimeLeft := t.1 }
          else
            let m := map_assign t.1 config.Location (currentTime + config.Duration.val - 1 / 20)
            match deref s.leftHandPort with
            | .error e => .error e
            | .ok q =>
              ApplyFeedback_right
                { s with fingerToSendTimeLeft := m, leftHandPort := some (SendFeedback q config) }
                currentTime config
  else ApplyFeedback_right s currentTime config

/-! ## Definitions used to state the properties -/

/-- Reassembly of four bytes, least significant first, into a 32-bit word: what a
little-endian receiver reads from bytes 2..5 of a command. -/
def reassemble_duration (data : List Nat) : Nat :=
  data.getD 2 0 + 256 * data.getD 3 0 + 65536 * data.getD 4 0 + 16777216 * data.getD 5 0

/-- The port pointer of one hand (`Both` names no single port). -/
def HapticHandFeedback.port (s : HapticHandFeedback) : HapticHand → Option SerialPortWrapper
  | HapticHand.Left => s.leftHandPort
  | HapticHand.Right => s.rightHandPort
  | HapticHand.Both => none

/-- The cooldown table of one hand (`Both` names no single table). -/
def HapticHandFeedback.table (s : HapticHandFeedback) : HapticHand → FeedbackLocation → Option ℚ
  | HapticHand.Left => s.fingerToSendTimeLeft
  | HapticHand.Right => s.fingerToSendTimeRight
  | HapticHand.Both => fun _ => none

/-- A location is in cooldown in a table at time `now` when it is present and its stored
time stamp is strictly greater than `now`. -/
def in_cooldown (m : FeedbackLocation → Option ℚ) (k : FeedbackLocation) (now : ℚ) : Bool :=
  match m k with
  | some v => decide (v > now)
  | none => false

/-- The single-precision value nearest 0.2, with bit pattern 0x3E4CCCCD. -/
def float_0_2 : float := ⟨13421773 / 67108864, 1045220557, by decide⟩

/-- The single-precision value 1.5, with bit pattern 0x3FC00000. -/
def float_1_5 : float := ⟨3 / 2, 1069547520, by decide⟩

/-- The single-precision value 1.0, with bit pattern 0x3F800000. -/
def float_1_0 : float := ⟨1, 1065353216, by decide⟩

/-- The single-precision value 0.0. -/
def float_0_0 : float := ⟨0, 0, by decide⟩

/-- The single-precision value -1.0, with bit pattern 0xBF800000. -/
def float_neg_1_0 : float := ⟨-1, 3212836864, by decide⟩

/-- A wrapper for COM3 whose `open` flag is set and that has written nothing. -/
def open_port : SerialPortWrapper :=
  { SerialPortWrapper.new "COM3" 9600 8 with open_ := true }

/-- A wrapper for COM3 as its constructor leaves it: not open. -/
def closed_port : SerialPortWrapper := SerialPortWrapper.new "COM3" 9600 8

/-- The state after the right-hand block has accepted a request. -/
def right_accepted (s : HapticHandFeedback) (currentTime : ℚ) (config : HandFeedbackConfig)
    (p : SerialPortWrapper) : HapticHandFeedback :=
  { s with
    fingerToSendTimeRight := Function.update s.fingerToSendTimeRight config.Location
      (some (currentTime + config.Duration.val - 1 / 20)),
    rightHandPort := some (SendFeedback p config) }

/-- The state after the left-hand block has accepted a request. -/
def left_accepted (s : HapticHandFeedback) (currentTime : ℚ) (config : HandFeedbackConfig)
    (p : SerialPortWrapper) : HapticHandFeedback :=
  { s with
    fingerToSendTimeLeft := Function.update s.fingerToSendTimeLeft config.Location
      (some (currentTime + config.Duration.val - 1 / 20)),
    leftHandPort := some (SendFeedback p config) }

/-- The buffers with which `Write` has been called on the port of one hand, oldest
first; empty when the hand has no port. -/
def HapticHandFeedback.calls (s : HapticHandFeedback) (h : HapticHand) : List (List Nat) :=
  match s.port h with
  | some p => p.writeCalls
  | none => []

/-- The byte sequences that have reached the serial device of one hand through
`writeBytes`, oldest first; empty when the hand has no port. -/
def HapticHandFeedback.device_written (s : HapticHandFeedback) (h : HapticHand) :
    List (List Nat) :=
  match s.port h with
  | some p => p.pImpl.serial.written
  | none => []

/-- A hand has a usable transport: its port pointer is set and the port reports open. -/
def HapticHandFeedback.transport_open (s : HapticHandFeedback) (h : HapticHand) : Bool :=
  match s.port h with
  | some p => p.IsOpen
  | none => false

/-- Between the states `s` and `s2` the request `config`, made at time `now`, was accepted
for hand `h`: the entry of the location in the table of `h` is now + duration - 0.05 and
`Write` was called once more on the port of `h`, with the encoded command. -/
def accepted_for (s s2 : HapticHandFeedback) (h : HapticHand) (now : ℚ)
    (config : HandFeedbackConfig) : Prop :=
  s2.table h config.Location = some (now + config.Duration.val - 1 / 20) ∧
  s2.calls h = s.calls h ++ [SendFeedback_data config]

/-- A state with both ports open and both tables empty. -/
def both_open : HapticHandFeedback :=
  { leftHandPort := some open_port, rightHandPort := some open_port,
    fingerToSendTimeRight := fun _ => none, fingerToSendTimeLeft := fun _ => none }

/-- A request for the left thumb at full strength, lasting one second. -/
def left_thumb_1s : HandFeedbackConfig :=
  ⟨HapticHand.Left, FeedbackLocation.Thumb, float_1_0, float_1_0⟩

/-- The single-precision value nearest 0.1, with bit pattern 0x3DCCCCCD. -/
def float_0_1 : float := ⟨13421773 / 134217728, 1036831949, by decide⟩

/-- A request for the left thumb at full strength, lasting a tenth of a second. -/
def left_thumb_100ms : HandFeedbackConfig :=
  ⟨HapticHand.Left, FeedbackLocation.Thumb, float_1_0, float_0_1⟩

/-- A state whose left port pointer is null and whose right port is open; both tables
are empty. -/
def left_absent_right_open : HapticHandFeedback :=
  { leftHandPort := none, rightHandPort := some open_port,
    fingerToSendTimeRight := fun _ => none, fingerToSendTimeLeft := fun _ => none }

/-- A state with both ports open in which only the left index finger has an entry, 100. -/
def left_index_cooling : HapticHandFeedback :=
  { leftHandPort := some open_port, rightHandPort := some open_port,
    fingerToSendTimeRight := fun _ => none,
    fingerToSendTimeLeft := Function.update (fun _ => none) FeedbackLocation.Index (some 100) }

/-- A state with both ports open in which only the right index finger has an entry, 100. -/
def right_index_cooling : HapticHandFeedback :=
  { leftHandPort := some open_port, rightHandPort := some open_port,
    fingerToSendTimeRight := Function.update (fun _ => none) FeedbackLocation.Index (some 100),
    fingerToSendTimeLeft := fun _ => none }

/-- A state with both ports constructed and not open, and both tables empty. -/
def both_closed : HapticHandFeedback :=
  { leftHandPort := some closed_port, rightHandPort := some closed_port,
    fingerToSendTimeRight := fun _ => none, fingerToSendTimeLeft := fun _ => none }

/-- A request for the index finger of both hands, strength 1.5, lasting 0.2 seconds. -/
def both_index : HandFeedbackConfig :=
  ⟨HapticHand.Both, FeedbackLocation.Index, float_1_5, float_0_2⟩

/-- A request for the left index finger, strength 1.5, lasting 0.2 seconds. -/
def left_index : HandFeedbackConfig :=
  ⟨HapticHand.Left, FeedbackLocation.Index, float_1_5, float_0_2⟩

/-- A table holds an entry for each of the five named locations. -/
def has_five_keys (m : FeedbackLocation → Option ℚ) : Prop :=
  (m FeedbackLocation.Thumb).isSome = true ∧ (m FeedbackLocation.Index).isSome = true ∧
  (m FeedbackLocation.Middle).isSome = true ∧ (m FeedbackLocation.Ring).isSome = true ∧
  (m FeedbackLocation.Pinky).isSome = true

/-- One call of a public method of the dispatcher, with the clock sample it takes. -/
inductive Call where
  | Initialize (leftHandComPort rightHandComPort : Nat) (currentTime : ℚ)
  | Close
  | ApplyFeedback (currentTime : ℚ) (config : HandFeedbackConfig)

/-- The effect of one call on the dispatcher. -/
def call (s : HapticHandFeedback) : Call → Except Fault HapticHandFeedback
  | Call.Initialize l r t => .ok (s.Initialize l r t)
  | Call.Close => s.Close
  | Call.ApplyFeedback t config => s.ApplyFeedback t config

/-- The effect of a sequence of calls, first call first; a fault ends the run. -/
def run (s : HapticHandFeedback) : List Call → Except Fault HapticHandFeedback
  | [] => .ok s
  | c :: cs =>
    match call s c with
    | .error e => .error e
    | .ok s1 => run s1 cs

/-- The state that `Initialize(3, 4)` at time 10 leaves from a new dispatcher, with the
open flag of both ports then set. -/
def initialized_open : HapticHandFeedback :=
  { HapticHandFeedback.new.Initialize 3 4 10 with
    leftHandPort := some open_port, rightHandPort := some open_port }

/-- A request for the right pinky at full strength, lasting 0.2 seconds. -/
def right_pinky : HandFeedbackConfig :=
  ⟨HapticHand.Right, FeedbackLocation.Pinky, float_1_0, float_0_2⟩

/-- A request for the right thumb at full strength, lasting one second. -/
def right_thumb_1s : HandFeedbackConfig :=
  ⟨HapticHand.Right, FeedbackLocation.Thumb, float_1_0, float_1_0⟩

/-- A request for the left index finger at full strength, lasting one second. -/
def left_index_1s : HandFeedbackConfig :=
  ⟨HapticHand.Left, FeedbackLocation.Index, float_1_0, float_1_0⟩

/-- A request for the left hand naming the location code 3, which is none of the five
named locations. -/
def left_code_3 : HandFeedbackConfig :=
  ⟨HapticHand.Left, ⟨3⟩, float_1_0, float_0_2⟩

/-- A request for the left thumb at full strength, lasting no time. -/
def left_thumb_0s : HandFeedbackConfig :=
  ⟨HapticHand.Left, FeedbackLocation.Thumb, float_1_0, float_0_0⟩

/-- A state with both ports open in which only the left thumb has an entry, 10. -/
def left_thumb_at_10 : HapticHandFeedback :=
  { leftHandPort := some open_port, rightHandPort := some open_port,
    fingerToSendTimeRight := fun _ => none,
    fingerToSendTimeLeft := Function.update (fun _ => none) FeedbackLocation.Thumb (some 10) }

/-! ## Command encoder -/

theorem SendFeedback_data_eq (config : HandFeedbackConfig) :
    SendFeedback_data config =
      [config.Location.code.val,
       static_cast_uint8 (255 * clamp_value config.NormalizedStrength.val 0 1),
       duration_bytes config.Duration 0, duration_bytes config.Duration 1,
       duration_bytes config.Duration 2, duration_bytes config.Duration 3, 0, 0] := rfl

theorem clamp_value_eq_min_max {T : Type} [LinearOrder T] (value lo hi : T) (h : lo ≤ hi) :
    clamp_value value lo hi = min (max value lo) hi := by
  unfold clamp_value
  rcases le_total value hi with h2 | h2
  · rw [min_eq_left h2, min_eq_left (max_le h2 h), max_comm]
  · rw [min_eq_right h2, max_eq_right h, min_eq_right (le_trans h2 (le_max_left _ _))]

theorem clamp_value_unit_bounds (s : ℚ) : 0 ≤ clamp_value s 0 1 ∧ clamp_value s 0 1 ≤ 1 := by
  unfold clamp_value
  exact ⟨le_max_left _ _, max_le (by norm_num) (min_le_right _ _)⟩

/-- On a non-negative value the cast discards the fractional part: it is the floor,
kept to 8 bits. -/
theorem static_cast_uint8_of_nonneg (x : ℚ) (h : 0 ≤ x) :
    static_cast_uint8 x = (⌊x⌋ % 256).toNat := by
  unfold static_cast_uint8
  rw [Int.tdiv_eq_ediv (Rat.num_nonneg.mpr h) (Int.ofNat_nonneg _), Rat.floor_def]

theorem floor_scaled_clamp_bounds (s : ℚ) :
    0 ≤ ⌊255 * clamp_value s 0 1⌋ ∧ ⌊255 * clamp_value s 0 1⌋ ≤ 255 := by
  obtain ⟨h0, h1⟩ := clamp_value_unit_bounds s
  constructor
  · exact Int.floor_nonneg.mpr (by positivity)
  · have h : (255 * clamp_value s 0 1 : ℚ) ≤ ((255 : ℤ) : ℚ) := by push_cast; linarith
    exact Int.floor_le_floor h |>.trans (le_of_eq (Int.floor_intCast 255))

theorem strength_byte_eq_floor (s : ℚ) :
    static_cast_uint8 (255 * clamp_value s 0 1) = (⌊255 * clamp_value s 0 1⌋).toNat := by
  obtain ⟨h0, h1⟩ := floor_scaled_clamp_bounds s
  rw [static_cast_uint8_of_nonneg _ (by have := (clamp_value_unit_bounds s).1; positivity)]
  congr 1
  omega

theorem reassemble_bytes (w : Nat) (h : w < 4294967296) :
    (w >>> (8 * 0)) % 256 + 256 * ((w >>> (8 * 1)) % 256) + 65536 * ((w >>> (8 * 2)) % 256)
      + 16777216 * ((w >>> (8 * 3)) % 256) = w := by
  simp only [Nat.shiftRight_eq_div_pow]
  norm_num
  omega

/-- C7: the command encoder is total with a fixed layout. For every request the vector
built by SendFeedback has length exactly 8, byte 0 is the code of the location (1, 2, 4,
8, 16 for Thumb, Index, Middle, Ring, Pinky), bytes 6 and 7 are 0, and the bytes do not
depend on the hand. -/
theorem C7_encoder_layout (config : HandFeedbackConfig) :
    (SendFeedback_data config).length = 8 ∧
    (SendFeedback_data config)[0]? = some config.Location.code.val ∧
    (SendFeedback_data { config with Location := FeedbackLocation.Thumb })[0]? = some 1 ∧
    (SendFeedback_data { config with Location := FeedbackLocation.Index })[0]? = some 2 ∧
    (SendFeedback_data { config with Location := FeedbackLocation.Middle })[0]? = some 4 ∧
    (SendFeedback_data { config with Location := FeedbackLocation.Ring })[0]? = some 8 ∧
    (SendFeedback_data { config with Location := FeedbackLocation.Pinky })[0]? = some 16 ∧
    (SendFeedback_data config)[6]? = some 0 ∧
    (SendFeedback_data config)[7]? = some 0 ∧
    (∀ hand : HapticHand,
      SendFeedback_data { config with Hand := hand } = SendFeedback_data config) := by
  refine ⟨rfl, rfl, rfl, rfl, rfl, rfl, rfl, rfl, rfl, fun _ => rfl⟩

/-- C8: the strength byte over exact arithmetic. Byte 1 is the integer part of
255 * min(max(s, 0), 1); clamp_value as written agrees with min(max(s, lo), hi) whenever
lo <= hi; byte 1 is 0 for s <= 0 and 255 for s >= 1; the truncated value lies in 0..255
before the 8-bit cast, so the cast does not wrap; byte 1 is monotone in s. -/
theorem C8_strength_byte :
    (∀ config : HandFeedbackConfig,
      (SendFeedback_data config)[1]? =
        some (⌊255 * min (max config.NormalizedStrength.val 0) 1⌋).toNat) ∧
    (∀ s lo hi : ℚ, lo ≤ hi → clamp_value s lo hi = min (max s lo) hi) ∧
    (∀ config : HandFeedbackConfig, config.NormalizedStrength.val ≤ 0 →
      (SendFeedback_data config)[1]? = some 0) ∧
    (∀ config : HandFeedbackConfig, 1 ≤ config.NormalizedStrength.val →
      (SendFeedback_data config)[1]? = some 255) ∧
    (∀ s : ℚ,
      0 ≤ Int.tdiv (255 * clamp_value s 0 1).num ((255 * clamp_value s 0 1).den : Int) ∧
      Int.tdiv (255 * clamp_value s 0 1).num ((255 * clamp_value s 0 1).den : Int) ≤ 255 ∧
      static_cast_uint8 (255 * clamp_value s 0 1) ≤ 255) ∧
    (∀ c1 c2 : HandFeedbackConfig, c1.NormalizedStrength.val ≤ c2.NormalizedStrength.val →
      ∃ b1 b2, (SendFeedback_data c1)[1]? = some b1 ∧ (SendFeedback_data c2)[1]? = some b2 ∧
        b1 ≤ b2) := by
  have hbyte : ∀ config : HandFeedbackConfig, (SendFeedback_data config)[1]? =
      some (⌊255 * clamp_value config.NormalizedStrength.val 0 1⌋).toNat := by
    intro config
    rw [← strength_byte_eq_floor]
    rfl
  have hnn : ∀ s : ℚ, (0 : ℚ) ≤ 255 * clamp_value s 0 1 := fun s => by
    have := (clamp_value_unit_bounds s).1
    positivity
  refine ⟨?_, ?_, ?_, ?_, ?_, ?_⟩
  · intro config
    rw [hbyte, clamp_value_eq_min_max _ _ _ (by norm_num)]
  · intro s lo hi h
    exact clamp_value_eq_min_max s lo hi h
  · intro config h
    rw [hbyte]
    simp [clamp_value, min_eq_left (le_trans h (by norm_num : (0 : ℚ) ≤ 1)), max_eq_left h]
  · intro config h
    rw [hbyte]
    simp [clamp_value, min_eq_right h]
  · intro s
    obtain ⟨h0, h1⟩ := floor_scaled_clamp_bounds s
    have ht : Int.tdiv (255 * clamp_value s 0 1).num ((255 * clamp_value s 0 1).den : Int)
        = ⌊255 * clamp_value s 0 1⌋ := by
      rw [Int.tdiv_eq_ediv (Rat.num_nonneg.mpr (hnn s)) (Int.ofNat_nonneg _), Rat.floor_def]
    rw [ht, strength_byte_eq_floor]
    exact ⟨h0, h1, by omega⟩
  · intro c1 c2 h
    refine ⟨_, _, hbyte c1, hbyte c2, ?_⟩
    apply Int.toNat_le_toNat
    apply Int.floor_le_floor
    have : clamp_value c1.NormalizedStrength.val 0 1 ≤ clamp_value c2.NormalizedStrength.val 0 1 := by
      unfold clamp_value
      exact max_le_max le_rfl (min_le_min h le_rfl)
    linarith

/-- C9: duration round trip. Bytes 2..5 of the command are the four bytes of the 32-bit
pattern w of the duration, least significant first, byte[2+i] = (w >> 8*i) mod 256, and
reassembling them in the same order gives w again; for the pattern 0x3E4CCCCD of the
single-precision value nearest 0.2 the bytes are CD CC 4C 3E. -/
theorem C9_duration_round_trip (config : HandFeedbackConfig) :
    (SendFeedback_data config)[2]? = some ((config.Duration.bits >>> (8 * 0)) % 256) ∧
    (SendFeedback_data config)[3]? = some ((config.Duration.bits >>> (8 * 1)) % 256) ∧
    (SendFeedback_data config)[4]? = some ((config.Duration.bits >>> (8 * 2)) % 256) ∧
    (SendFeedback_data config)[5]? = some ((config.Duration.bits >>> (8 * 3)) % 256) ∧
    reassemble_duration (SendFeedback_data config) = config.Duration.bits ∧
    ((SendFeedback_data { config with Duration := float_0_2 }).drop 2).take 4
      = [205, 204, 76, 62] ∧
    reassemble_duration (SendFeedback_data { config with Duration := float_0_2 })
      = 1045220557 := by
  have hre : ∀ c : HandFeedbackConfig,
      reassemble_duration (SendFeedback_data c) = c.Duration.bits := by
    intro c
    have h := reassemble_bytes c.Duration.bits c.Duration.bits_lt
    simpa [reassemble_duration, SendFeedback_data_eq, duration_bytes] using h
  refine ⟨rfl, rfl, rfl, rfl, hre config, ?_, ?_⟩
  · simp [SendFeedback_data_eq, duration_bytes, float_0_2, Nat.shiftRight_eq_div_pow]
  · rw [hre]
    rfl

/-- Witness of C8 at the strengths -1.0, 0.0, 1.0 and 1.5. -/
theorem C8_strength_byte_witness :
    clamp_value (3 / 2 : ℚ) 0 1 = min (max (3 / 2) 0) 1 ∧
    (SendFeedback_data ⟨HapticHand.Left, FeedbackLocation.Index, float_neg_1_0, float_0_2⟩)[1]?
      = some 0 ∧
    (SendFeedback_data ⟨HapticHand.Left, FeedbackLocation.Index, float_1_5, float_0_2⟩)[1]?
      = some 255 ∧
    (∃ b1 b2,
      (SendFeedback_data ⟨HapticHand.Left, FeedbackLocation.Index, float_0_0, float_0_2⟩)[1]?
        = some b1 ∧
      (SendFeedback_data ⟨HapticHand.Left, FeedbackLocation.Index, float_1_0, float_0_2⟩)[1]?
        = some b2 ∧ b1 ≤ b2) :=
  ⟨C8_strength_byte.2.1 (3 / 2) 0 1 (by norm_num),
   C8_strength_byte.2.2.1 ⟨HapticHand.Left, FeedbackLocation.Index, float_neg_1_0, float_0_2⟩
     (by norm_num [float_neg_1_0]),
   C8_strength_byte.2.2.2.1 ⟨HapticHand.Left, FeedbackLocation.Index, float_1_5, float_0_2⟩
     (by norm_num [float_1_5]),
   C8_strength_byte.2.2.2.2.2 ⟨HapticHand.Left, FeedbackLocation.Index, float_0_0, float_0_2⟩
     ⟨HapticHand.Left, FeedbackLocation.Index, float_1_0, float_0_2⟩
     (by norm_num [float_0_0, float_1_0])⟩

/-! ## Feedback dispatcher: the steps of ApplyFeedback -/

/-- The cooldown condition never changes the table (the subscript is evaluated only on
a present key) and its value is `in_cooldown`. -/
theorem cooldown_test_eq (m : FeedbackLocation → Option ℚ) (k : FeedbackLocation) (now : ℚ) :
    cooldown_test m k now = (m, in_cooldown m k now) := by
  unfold cooldown_test in_cooldown map_count map_index
  cases h : m k <;> simp

theorem map_assign_eq (m : FeedbackLocation → Option ℚ) (k : FeedbackLocation) (v : ℚ) :
    map_assign m k v = Function.update m k (some v) := by
  unfold map_assign map_index
  cases h : m k <;> simp

theorem Write_of_open (p : SerialPortWrapper) (data : List Nat) (h : p.IsOpen = true) :
    p.Write data = { p with writeCalls := p.writeCalls ++ [data] } := by
  unfold SerialPortWrapper.IsOpen at h
  simp [SerialPortWrapper.Write, h]

theorem Write_of_not_open (p : SerialPortWrapper) (data : List Nat) (h : p.IsOpen = false) :
    p.Write data =
      { p with writeCalls := p.writeCalls ++ [data],
               pImpl := { p.pImpl with
                 serial := { p.pImpl.serial with written := p.pImpl.serial.written ++ [data] } } } := by
  unfold SerialPortWrapper.IsOpen at h
  simp [SerialPortWrapper.Write, h, serialib.writeBytes]

theorem right_not_named (s : HapticHandFeedback) (now : ℚ) (config : HandFeedbackConfig)
    (h : config.Hand = HapticHand.Left) : ApplyFeedback_right s now config = .ok s := by
  simp [ApplyFeedback_right, h]

theorem right_absent (s : HapticHandFeedback) (now : ℚ) (config : HandFeedbackConfig)
    (h : s.rightHandPort = none) : ApplyFeedback_right s now config = .ok s := by
  unfold ApplyFeedback_right
  split <;> simp [h]

theorem right_not_open (s : HapticHandFeedback) (now : ℚ) (config : HandFeedbackConfig)
    (p : SerialPortWrapper) (h : s.rightHandPort = some p) (ho : p.IsOpen = false) :
    ApplyFeedback_right s now config = .ok s := by
  unfold ApplyFeedback_right
  split <;> simp [h, deref, ho]

theorem right_in_cooldown (s : HapticHandFeedback) (now : ℚ) (config : HandFeedbackConfig)
    (hc : in_cooldown s.fingerToSendTimeRight config.Location now = true) :
    ApplyFeedback_right s now config = .ok s := by
  unfold ApplyFeedback_right
  split
  · cases hp : s.rightHandPort with
    | none => simp
    | some p =>
      cases ho : p.IsOpen
      · simp [deref, ho]
      · simp only [deref, ho, cooldown_test_eq, hc]
        simp
        rw [← hp]
  · rfl

theorem right_accept (s : HapticHandFeedback) (now : ℚ) (config : HandFeedbackConfig)
    (p : SerialPortWrapper) (hh : config.Hand ≠ HapticHand.Left)
    (h : s.rightHandPort = some p) (ho : p.IsOpen = true)
    (hc : in_cooldown s.fingerToSendTimeRight config.Location now = false) :
    ApplyFeedback_right s now config = .ok (right_accepted s now config p) := by
  have hh2 : config.Hand = HapticHand.Right ∨ config.Hand = HapticHand.Both := by
    cases hx : config.Hand <;> simp_all
  unfold ApplyFeedback_right right_accepted
  simp [hh2, h, deref, ho, cooldown_test_eq, hc, map_assign_eq]

theorem left_not_named (s : HapticHandFeedback) (now : ℚ) (config : HandFeedbackConfig)
    (h : config.Hand = HapticHand.Right) :
    s.ApplyFeedback now config = ApplyFeedback_right s now config := by
  simp [HapticHandFeedback.ApplyFeedback, h]

theorem left_absent (s : HapticHandFeedback) (now : ℚ) (config : HandFeedbackConfig)
    (hh : config.Hand ≠ HapticHand.Right) (h : s.leftHandPort = none) :
    s.ApplyFeedback now config = .ok s := by
  have hh2 : config.Hand = HapticHand.Left ∨ config.Hand = HapticHand.Both := by
    cases hx : config.Hand <;> simp_all
  simp [HapticHandFeedback.ApplyFeedback, hh2, h]

theorem left_not_open (s : HapticHandFeedback) (now : ℚ) (config : HandFeedbackConfig)
    (p : SerialPortWrapper) (hh : config.Hand ≠ HapticHand.Right)
    (h : s.leftHandPort = some p) (ho : p.IsOpen = false) :
    s.ApplyFeedback now config = .ok s := by
  have hh2 : config.Hand = HapticHand.Left ∨ config.Hand = HapticHand.Both := by
    cases hx : config.Hand <;> simp_all
  simp [HapticHandFeedback.ApplyFeedback, hh2, h, deref, ho]

theorem left_in_cooldown (s : HapticHandFeedback) (now : ℚ) (config : HandFeedbackConfig)
    (hh : config.Hand ≠ HapticHand.Right)
    (hc : in_cooldown s.fingerToSendTimeLeft config.Location now = true) :
    s.ApplyFeedback now config = .ok s := by
  have hh2 : config.Hand = HapticHand.Left ∨ config.Hand = HapticHand.Both := by
    cases hx : config.Hand <;> simp_all
  unfold HapticHandFeedback.ApplyFeedback
  cases hp : s.leftHandPort with
  | none => simp [hh2]
  | some p =>
    cases ho : p.IsOpen
    · simp [hh2, deref, ho]
    · simp only [deref, ho, cooldown_test_eq, hc]
      simp [hh2]
      rw [← hp]

theorem left_accept (s : HapticHandFeedback) (now : ℚ) (config : HandFeedbackConfig)
    (p : SerialPortWrapper) (hh : config.Hand ≠ HapticHand.Right)
    (h : s.leftHandPort = some p) (ho : p.IsOpen = true)
    (hc : in_cooldown s.fingerToSendTimeLeft config.Location now = false) :
    s.ApplyFeedback now config = ApplyFeedback_right (left_accepted s now config p) now config := by
  have hh2 : config.Hand = HapticHand.Left ∨ config.Hand = HapticHand.Both := by
    cases hx : config.Hand <;> simp_all
  unfold HapticHandFeedback.ApplyFeedback left_accepted
  simp [hh2, h, deref, ho, cooldown_test_eq, hc, map_assign_eq]

theorem SendFeedback_of_open (p : SerialPortWrapper) (config : HandFeedbackConfig)
    (h : p.IsOpen = true) :
    (SendFeedback p config).IsOpen = true ∧
    (SendFeedback p config).writeCalls = p.writeCalls ++ [SendFeedback_data config] ∧
    (SendFeedback p config).pImpl = p.pImpl := by
  unfold SendFeedback
  rw [Write_of_open _ _ h]
  exact ⟨h, rfl, rfl⟩

/-- A request naming one hand only, on an open port and out of cooldown, is accepted. -/
theorem single_hand_accept (s : HapticHandFeedback) (now : ℚ) (config : HandFeedbackConfig)
    (p : SerialPortWrapper) (hh : config.Hand ≠ HapticHand.Both)
    (hp : s.port config.Hand = some p) (ho : p.IsOpen = true)
    (hc : in_cooldown (s.table config.Hand) config.Location now = false) :
    ∃ s1, s.ApplyFeedback now config = .ok s1 ∧
      s1.table config.Hand = Function.update (s.table config.Hand) config.Location
        (some (now + config.Duration.val - 1 / 20)) ∧
      s1.port config.Hand = some (SendFeedback p config) := by
  cases hx : config.Hand with
  | Both => exact absurd hx hh
  | Left =>
    rw [hx] at hp hc
    refine ⟨left_accepted s now config p, ?_, rfl, rfl⟩
    rw [left_accept s now config p (by simp [hx]) hp ho hc, right_not_named _ _ _ hx]
  | Right =>
    rw [hx] at hp hc
    refine ⟨right_accepted s now config p, ?_, rfl, rfl⟩
    rw [left_not_named s now config hx, right_accept s now config p (by simp [hx]) hp ho hc]

/-- A request naming one hand only, whose location is in cooldown for that hand, leaves
the state as it is. -/
theorem single_hand_drop (s : HapticHandFeedback) (now : ℚ) (config : HandFeedbackConfig)
    (hh : config.Hand ≠ HapticHand.Both)
    (hc : in_cooldown (s.table config.Hand) config.Location now = true) :
    s.ApplyFeedback now config = .ok s := by
  cases hx : config.Hand with
  | Both => exact absurd hx hh
  | Left =>
    rw [hx] at hc
    exact left_in_cooldown s now config (by simp [hx]) hc
  | Right =>
    rw [hx] at hc
    rw [left_not_named s now config hx]
    exact right_in_cooldown s now config hc

theorem in_cooldown_update (m : FeedbackLocation → Option ℚ) (k : FeedbackLocation)
    (v now : ℚ) : in_cooldown (Function.update m k (some v)) k now = decide (v > now) := by
  simp [in_cooldown]

theorem single_hand_accept_for (s : HapticHandFeedback) (now : ℚ) (config : HandFeedbackConfig)
    (p : SerialPortWrapper) (hh : config.Hand ≠ HapticHand.Both)
    (hp : s.port config.Hand = some p) (ho : p.IsOpen = true)
    (hc : in_cooldown (s.table config.Hand) config.Location now = false) :
    ∃ s1, s.ApplyFeedback now config = .ok s1 ∧ accepted_for s s1 config.Hand now config ∧
      s1.table config.Hand = Function.update (s.table config.Hand) config.Location
        (some (now + config.Duration.val - 1 / 20)) ∧
      s1.port config.Hand = some (SendFeedback p config) := by
  obtain ⟨s1, h1, h2, h3⟩ := single_hand_accept s now config p hh hp ho hc
  refine ⟨s1, h1, ⟨?_, ?_⟩, h2, h3⟩
  · rw [h2]; simp
  · simp [HapticHandFeedback.calls, h3, hp, (SendFeedback_of_open p config ho).2.1]

theorem accepted_for_ne (s s2 : HapticHandFeedback) (h : HapticHand) (now : ℚ)
    (config : HandFeedbackConfig) (ha : accepted_for s s2 h now config) : s2 ≠ s := by
  intro he
  have h2 := ha.2
  rw [he] at h2
  simp at h2

/-- What a request does when the table of its hand holds `stored` for its location and
the port of that hand is open: it is dropped exactly when `stored > now`. -/
theorem request_on_stored (s1 : HapticHandFeedback) (stored now : ℚ)
    (config : HandFeedbackConfig) (p1 : SerialPortWrapper)
    (hh : config.Hand ≠ HapticHand.Both)
    (ht : s1.table config.Hand config.Location = some stored)
    (hp : s1.port config.Hand = some p1) (ho : p1.IsOpen = true) :
    (s1.ApplyFeedback now config = .ok s1 ↔ stored > now) ∧
    (¬ (stored > now) →
      ∃ s2, s1.ApplyFeedback now config = .ok s2 ∧ accepted_for s1 s2 config.Hand now config) := by
  have hcd : in_cooldown (s1.table config.Hand) config.Location now = decide (stored > now) := by
    simp [in_cooldown, ht]
  have hacc : ¬ (stored > now) →
      ∃ s2, s1.ApplyFeedback now config = .ok s2 ∧ accepted_for s1 s2 config.Hand now config := by
    intro hn
    obtain ⟨s2, h1, h2, _, _⟩ := single_hand_accept_for s1 now config p1 hh hp ho
      (by rw [hcd]; simpa using hn)
    exact ⟨s2, h1, h2⟩
  refine ⟨⟨?_, ?_⟩, hacc⟩
  · intro he
    by_contra hn
    obtain ⟨s2, h1, h2⟩ := hacc hn
    rw [he] at h1
    exact accepted_for_ne _ _ _ _ _ h2 (Except.ok.inj h1).symm
  · intro hgt
    exact single_hand_drop s1 now config hh (by rw [hcd]; simpa using hgt)

/-- C1: cooldown scheduling over exact arithmetic. A single-hand request (h, L, d) accepted
at time T on an open port leaves the entry of (h, L) at exactly T + d - 0.05, and a
following request for the same (h, L) at time T2 is dropped if and only if
T + d - 0.05 > T2, and accepted otherwise. With d = 1.0 a request at T + 0.94 is dropped
and one at T + 0.95 is accepted; with d above 0.05 (such as 0.1) a second request at the
same instant T is dropped. -/
theorem C1_cooldown_scheduling (s : HapticHandFeedback) (T : ℚ) (config : HandFeedbackConfig)
    (p : SerialPortWrapper) (hh : config.Hand ≠ HapticHand.Both)
    (hp : s.port config.Hand = some p) (ho : p.IsOpen = true)
    (hc : in_cooldown (s.table config.Hand) config.Location T = false) :
    ∃ s1, s.ApplyFeedback T config = .ok s1 ∧
      s1.table config.Hand config.Location = some (T + config.Duration.val - 1 / 20) ∧
      (∀ (T2 : ℚ) (config2 : HandFeedbackConfig),
        config2.Hand = config.Hand → config2.Location = config.Location →
          (s1.ApplyFeedback T2 config2 = .ok s1 ↔ T + config.Duration.val - 1 / 20 > T2) ∧
          (¬ (T + config.Duration.val - 1 / 20 > T2) →
            ∃ s2, s1.ApplyFeedback T2 config2 = .ok s2 ∧
              accepted_for s1 s2 config.Hand T2 config2)) ∧
      (config.Duration.val = 1 → ∀ config2 : HandFeedbackConfig,
        config2.Hand = config.Hand → config2.Location = config.Location →
          s1.ApplyFeedback (T + 47 / 50) config2 = .ok s1 ∧
          ∃ s2, s1.ApplyFeedback (T + 19 / 20) config2 = .ok s2 ∧
            accepted_for s1 s2 config.Hand (T + 19 / 20) config2) ∧
      (1 / 20 < config.Duration.val → ∀ config2 : HandFeedbackConfig,
        config2.Hand = config.Hand → config2.Location = config.Location →
          s1.ApplyFeedback T config2 = .ok s1) := by
  obtain ⟨s1, h1, _, h2, h3⟩ := single_hand_accept_for s T config p hh hp ho hc
  have ho1 := (SendFeedback_of_open p config ho).1
  have hst : s1.table config.Hand config.Location = some (T + config.Duration.val - 1 / 20) := by
    rw [h2]; simp
  have key : ∀ (T2 : ℚ) (config2 : HandFeedbackConfig),
      config2.Hand = config.Hand → config2.Location = config.Location →
        (s1.ApplyFeedback T2 config2 = .ok s1 ↔ T + config.Duration.val - 1 / 20 > T2) ∧
        (¬ (T + config.Duration.val - 1 / 20 > T2) →
          ∃ s2, s1.ApplyFeedback T2 config2 = .ok s2 ∧
            accepted_for s1 s2 config.Hand T2 config2) := by
    intro T2 config2 e1 e2
    have := request_on_stored s1 (T + config.Duration.val - 1 / 20) T2 config2
      (SendFeedback p config) (by rw [e1]; exact hh) (by rw [e1, e2]; exact hst)
      (by rw [e1]; exact h3) ho1
    rw [e1] at this
    exact this
  refine ⟨s1, h1, hst, key, ?_, ?_⟩
  · intro hd config2 e1 e2
    refine ⟨(key (T + 47 / 50) config2 e1 e2).1.mpr (by rw [hd]; linarith), ?_⟩
    exact (key (T + 19 / 20) config2 e1 e2).2 (by rw [hd]; intro h; linarith)
  · intro hd config2 e1 e2
    exact (key T config2 e1 e2).1.mpr (by linarith)

/-- Witness of C1: the left thumb on an open port at time 10, lasting one second and
lasting a tenth of a second. -/
theorem C1_cooldown_scheduling_witness :
    (∃ s1, both_open.ApplyFeedback 10 left_thumb_1s = .ok s1 ∧
      s1.table HapticHand.Left FeedbackLocation.Thumb = some (219 / 20) ∧
      s1.ApplyFeedback (10 + 47 / 50) left_thumb_1s = .ok s1 ∧
      ∃ s2, s1.ApplyFeedback (10 + 19 / 20) left_thumb_1s = .ok s2 ∧
        accepted_for s1 s2 HapticHand.Left (10 + 19 / 20) left_thumb_1s) ∧
    (∃ s1, both_open.ApplyFeedback 10 left_thumb_100ms = .ok s1 ∧
      s1.ApplyFeedback 10 left_thumb_100ms = .ok s1) := by
  constructor
  · obtain ⟨s1, h1, h2, _, h4, _⟩ := C1_cooldown_scheduling both_open 10 left_thumb_1s open_port
      (by decide) rfl rfl rfl
    refine ⟨s1, h1, ?_, (h4 rfl left_thumb_1s rfl rfl).1, (h4 rfl left_thumb_1s rfl rfl).2⟩
    rw [show left_thumb_1s.Hand = HapticHand.Left from rfl,
      show left_thumb_1s.Location = FeedbackLocation.Thumb from rfl] at h2
    rw [h2]
    norm_num [left_thumb_1s, float_1_0]
  · obtain ⟨s1, h1, _, _, _, h5⟩ := C1_cooldown_scheduling both_open 10 left_thumb_100ms
      open_port (by decide) rfl rfl rfl
    exact ⟨s1, h1, h5 (by norm_num [left_thumb_100ms, float_0_1]) left_thumb_100ms rfl rfl⟩

theorem transport_open_left_false (s : HapticHandFeedback)
    (h : s.transport_open HapticHand.Left = false) :
    s.leftHandPort = none ∨ ∃ p, s.leftHandPort = some p ∧ p.IsOpen = false := by
  unfold HapticHandFeedback.transport_open HapticHandFeedback.port at h
  cases hp : s.leftHandPort with
  | none => exact Or.inl rfl
  | some p => rw [hp] at h; exact Or.inr ⟨p, rfl, h⟩

theorem transport_open_right_false (s : HapticHandFeedback)
    (h : s.transport_open HapticHand.Right = false) :
    s.rightHandPort = none ∨ ∃ p, s.rightHandPort = some p ∧ p.IsOpen = false := by
  unfold HapticHandFeedback.transport_open HapticHandFeedback.port at h
  cases hp : s.rightHandPort with
  | none => exact Or.inl rfl
  | some p => rw [hp] at h; exact Or.inr ⟨p, rfl, h⟩

theorem right_no_transport (s : HapticHandFeedback) (now : ℚ) (config : HandFeedbackConfig)
    (h : s.transport_open HapticHand.Right = false) :
    ApplyFeedback_right s now config = .ok s := by
  rcases transport_open_right_false s h with h0 | ⟨p, h1, h2⟩
  · exact right_absent s now config h0
  · exact right_not_open s now config p h1 h2

theorem left_no_transport (s : HapticHandFeedback) (now : ℚ) (config : HandFeedbackConfig)
    (hh : config.Hand ≠ HapticHand.Right) (h : s.transport_open HapticHand.Left = false) :
    s.ApplyFeedback now config = .ok s := by
  rcases transport_open_left_false s h with h0 | ⟨p, h1, h2⟩
  · exact left_absent s now config hh h0
  · exact left_not_open s now config p hh h1 h2

/-- With no usable transport on either hand every request leaves the state as it is. -/
theorem ApplyFeedback_no_transport (s : HapticHandFeedback) (now : ℚ)
    (config : HandFeedbackConfig) (hl : s.transport_open HapticHand.Left = false)
    (hr : s.transport_open HapticHand.Right = false) : s.ApplyFeedback now config = .ok s := by
  cases hx : config.Hand with
  | Left => exact left_no_transport s now config (by simp [hx]) hl
  | Both => exact left_no_transport s now config (by simp [hx]) hl
  | Right =>
    rw [left_not_named s now config hx]
    exact right_no_transport s now config hr

theorem Close_eq (s : HapticHandFeedback) :
    s.Close = .ok { s with leftHandPort := none, rightHandPort := none } := by
  obtain ⟨l, r, tr, tl⟩ := s
  cases l <;> cases r <;> simp [HapticHandFeedback.Close, deref]

/-- C2: for a request with hand = Both, what the code does when one transport is unusable.
When the left port is absent or not open the method returns at once: the state is
unchanged, so the right hand, even with an open port and the location out of cooldown,
gets neither its entry updated nor a command. When the left hand is usable and the right
port is absent or not open, the left hand is served. -/
theorem C2_both_with_one_transport_unusable (s : HapticHandFeedback) (now : ℚ)
    (config : HandFeedbackConfig) (hb : config.Hand = HapticHand.Both) :
    (s.transport_open HapticHand.Left = false → s.ApplyFeedback now config = .ok s) ∧
    (∀ p, s.leftHandPort = some p → p.IsOpen = true →
      in_cooldown s.fingerToSendTimeLeft config.Location now = false →
      s.transport_open HapticHand.Right = false →
        s.ApplyFeedback now config = .ok (left_accepted s now config p) ∧
        accepted_for s (left_accepted s now config p) HapticHand.Left now config) := by
  constructor
  · intro hl
    exact left_no_transport s now config (by simp [hb]) hl
  · intro p hp ho hc hr
    constructor
    · rw [left_accept s now config p (by simp [hb]) hp ho hc]
      exact right_no_transport _ now config hr
    · refine ⟨by simp [left_accepted, HapticHandFeedback.table], ?_⟩
      simp [HapticHandFeedback.calls, HapticHandFeedback.port, left_accepted, hp,
        (SendFeedback_of_open p config ho).2.1]

/-- Witness of C2: with the left port pointer null and the right port open, a request
for the index finger of both hands changes nothing, and the right hand is not served. -/
theorem C2_both_with_one_transport_unusable_witness :
    left_absent_right_open.transport_open HapticHand.Right = true ∧
    in_cooldown left_absent_right_open.fingerToSendTimeRight both_index.Location 0 = false ∧
    left_absent_right_open.ApplyFeedback 0 both_index = .ok left_absent_right_open ∧
    ¬ accepted_for left_absent_right_open left_absent_right_open HapticHand.Right 0 both_index :=
  ⟨rfl, rfl,
   (C2_both_with_one_transport_unusable left_absent_right_open 0 both_index rfl).1 rfl,
   fun h => accepted_for_ne _ _ _ _ _ h rfl⟩

/-- C3: for a request with hand = Both and both ports open, what the code does when the
location is in cooldown on one hand only. In cooldown on the left: the method returns at
once and the state is unchanged, so the right hand, although out of cooldown, is not
served. In cooldown on the right only: the left hand is served and the right table is
unchanged. -/
theorem C3_both_with_one_hand_in_cooldown (s : HapticHandFeedback) (now : ℚ)
    (config : HandFeedbackConfig) (pl pr : SerialPortWrapper)
    (hb : config.Hand = HapticHand.Both)
    (hpl : s.leftHandPort = some pl) (hol : pl.IsOpen = true)
    (_hpr : s.rightHandPort = some pr) (_hor : pr.IsOpen = true) :
    (in_cooldown s.fingerToSendTimeLeft config.Location now = true →
      in_cooldown s.fingerToSendTimeRight config.Location now = false →
        s.ApplyFeedback now config = .ok s) ∧
    (in_cooldown s.fingerToSendTimeLeft config.Location now = false →
      in_cooldown s.fingerToSendTimeRight config.Location now = true →
        s.ApplyFeedback now config = .ok (left_accepted s now config pl) ∧
        accepted_for s (left_accepted s now config pl) HapticHand.Left now config ∧
        (left_accepted s now config pl).fingerToSendTimeRight = s.fingerToSendTimeRight) := by
  constructor
  · intro hcl _
    exact left_in_cooldown s now config (by simp [hb]) hcl
  · intro hcl hcr
    refine ⟨?_, ⟨by simp [left_accepted, HapticHandFeedback.table], ?_⟩, rfl⟩
    · rw [left_accept s now config pl (by simp [hb]) hpl hol hcl]
      exact right_in_cooldown _ now config hcr
    · simp [HapticHandFeedback.calls, HapticHandFeedback.port, left_accepted, hpl,
        (SendFeedback_of_open pl config hol).2.1]

/-- Witness of C3: both ports open, the left index finger in cooldown until 100 and the
right table empty; at time 0 a request for the index finger of both hands changes
nothing, and the right hand is not served. -/
theorem C3_both_with_one_hand_in_cooldown_witness :
    in_cooldown left_index_cooling.fingerToSendTimeLeft both_index.Location 0 = true ∧
    in_cooldown left_index_cooling.fingerToSendTimeRight both_index.Location 0 = false ∧
    left_index_cooling.ApplyFeedback 0 both_index = .ok left_index_cooling ∧
    ¬ accepted_for left_index_cooling left_index_cooling HapticHand.Right 0 both_index := by
  have h1 : in_cooldown left_index_cooling.fingerToSendTimeLeft both_index.Location 0 = true := by
    simp [in_cooldown, left_index_cooling, both_index]
  exact ⟨h1, rfl,
    (C3_both_with_one_hand_in_cooldown left_index_cooling 0 both_index open_port open_port
      rfl rfl rfl rfl rfl).1 h1 rfl,
    fun h => accepted_for_ne _ _ _ _ _ h rfl⟩

/-- C4: what reaches the serial device. Write on a port whose open flag is set returns
without calling writeBytes, and on a port whose flag is clear it hands the buffer to
writeBytes. Hence when ApplyFeedback accepts a single-hand request, Write is called once
with the 8-byte command and the device of that hand receives nothing. -/
theorem C4_open_port_receives_nothing :
    (∀ (p : SerialPortWrapper) (data : List Nat), p.IsOpen = true →
      (p.Write data).pImpl.serial.written = p.pImpl.serial.written) ∧
    (∀ (p : SerialPortWrapper) (data : List Nat), p.IsOpen = false →
      (p.Write data).pImpl.serial.written = p.pImpl.serial.written ++ [data]) ∧
    (∀ (s : HapticHandFeedback) (now : ℚ) (config : HandFeedbackConfig) (p : SerialPortWrapper),
      config.Hand ≠ HapticHand.Both → s.port config.Hand = some p → p.IsOpen = true →
      in_cooldown (s.table config.Hand) config.Location now = false →
        ∃ s1, s.ApplyFeedback now config = .ok s1 ∧
          s1.calls config.Hand = s.calls config.Hand ++ [SendFeedback_data config] ∧
          s1.device_written config.Hand = s.device_written config.Hand) := by
  refine ⟨?_, ?_, ?_⟩
  · intro p data h
    rw [Write_of_open p data h]
  · intro p data h
    rw [Write_of_not_open p data h]
  · intro s now config p hh hp ho hc
    obtain ⟨s1, h1, h2, _, h4⟩ := single_hand_accept_for s now config p hh hp ho hc
    refine ⟨s1, h1, h2.2, ?_⟩
    simp [HapticHandFeedback.device_written, h4, hp, (SendFeedback_of_open p config ho).2.2]

/-- Witness of C4: the left thumb on an open port at time 10. The request is accepted,
Write is called with the command, and the device has still received nothing. -/
theorem C4_open_port_receives_nothing_witness :
    (open_port.Write [1, 255, 0, 0, 128, 63, 0, 0]).pImpl.serial.written = [] ∧
    (closed_port.Write [1, 255, 0, 0, 128, 63, 0, 0]).pImpl.serial.written
      = [[1, 255, 0, 0, 128, 63, 0, 0]] ∧
    ∃ s1, both_open.ApplyFeedback 10 left_thumb_1s = .ok s1 ∧
      s1.calls HapticHand.Left = [SendFeedback_data left_thumb_1s] ∧
      s1.device_written HapticHand.Left = [] :=
  ⟨C4_open_port_receives_nothing.1 open_port _ rfl,
   C4_open_port_receives_nothing.2.1 closed_port _ rfl,
   C4_open_port_receives_nothing.2.2 both_open 10 left_thumb_1s open_port (by decide) rfl rfl rfl⟩

/-- C5: what Initialize leaves behind. For every prior state, every pair of port ids and
every time, both port pointers are set to newly constructed wrappers on which Open has not
been called: both report IsOpen = false, whatever the device would answer, and every
ApplyFeedback on the resulting state leaves it unchanged. -/
theorem C5_Initialize_does_not_open (s : HapticHandFeedback)
    (leftHandComPort rightHandComPort : Nat) (currentTime : ℚ) :
    (∃ pl pr, (s.Initialize leftHandComPort rightHandComPort currentTime).leftHandPort = some pl ∧
      (s.Initialize leftHandComPort rightHandComPort currentTime).rightHandPort = some pr ∧
      pl.IsOpen = false ∧ pr.IsOpen = false ∧
      pl.pImpl.serial.deviceOpened = false ∧ pr.pImpl.serial.deviceOpened = false) ∧
    (∀ (now : ℚ) (config : HandFeedbackConfig),
      (s.Initialize leftHandComPort rightHandComPort currentTime).ApplyFeedback now config
        = .ok (s.Initialize leftHandComPort rightHandComPort currentTime)) := by
  refine ⟨⟨_, _, rfl, rfl, rfl, rfl, rfl, rfl⟩, ?_⟩
  intro now config
  exact ApplyFeedback_no_transport _ now config rfl rfl

/-- C6: a dropped request has no effect. For every state and every single-hand request
whose location is present in the table of its hand with a stored time stamp strictly
greater than now, ApplyFeedback returns the state it was given: both tables with their
key sets, both ports, and what has been written, are unchanged. -/
theorem C6_dropped_request_no_effect (s : HapticHandFeedback) (now : ℚ)
    (config : HandFeedbackConfig) (v : ℚ) (hh : config.Hand ≠ HapticHand.Both)
    (hv : s.table config.Hand config.Location = some v) (hgt : v > now) :
    s.ApplyFeedback now config = .ok s := by
  apply single_hand_drop s now config hh
  simp [in_cooldown, hv, hgt]

/-- Witness of C6: the left index finger holds 100 and the request comes at time 0. -/
theorem C6_dropped_request_no_effect_witness :
    left_index_cooling.ApplyFeedback 0 left_index = .ok left_index_cooling :=
  C6_dropped_request_no_effect left_index_cooling 0 left_index 100 (by decide)
    (by simp [HapticHandFeedback.table, left_index_cooling, left_index]) (by norm_num)

/-- C10: with no usable transport ApplyFeedback is a complete no-op and does not fault.
For every state in which neither hand has an open port (pointer null, or port not open)
and every request at any time, the result is the unchanged state and not a fault. This
covers the newly constructed dispatcher, a dispatcher whose ports failed to open, and
every state after Close. -/
theorem C10_no_transport_is_noop (s : HapticHandFeedback) (now : ℚ)
    (config : HandFeedbackConfig) :
    (s.transport_open HapticHand.Left = false → s.transport_open HapticHand.Right = false →
      s.ApplyFeedback now config = .ok s) ∧
    HapticHandFeedback.new.ApplyFeedback now config = .ok HapticHandFeedback.new ∧
    (∃ s1, s.Close = .ok s1 ∧ s1.transport_open HapticHand.Left = false ∧
      s1.transport_open HapticHand.Right = false ∧ s1.ApplyFeedback now config = .ok s1) ∧
    (∀ (pl pr : SerialPortWrapper) (el er : Int), el ≠ 1 → er ≠ 1 →
      pl.IsOpen = false → pr.IsOpen = false →
      s.leftHandPort = some (pl.Open el).1 → s.rightHandPort = some (pr.Open er).1 →
        s.ApplyFeedback now config = .ok s) := by
  refine ⟨fun hl hr => ApplyFeedback_no_transport s now config hl hr,
    ApplyFeedback_no_transport _ now config rfl rfl, ?_, ?_⟩
  · refine ⟨_, Close_eq s, rfl, rfl, ApplyFeedback_no_transport _ now config rfl rfl⟩
  · intro pl pr el er hel her hol hor hl hr
    apply ApplyFeedback_no_transport
    · simp [HapticHandFeedback.transport_open, HapticHandFeedback.port, hl,
        SerialPortWrapper.Open, hel]
      exact hol
    · simp [HapticHandFeedback.transport_open, HapticHandFeedback.port, hr,
        SerialPortWrapper.Open, her]
      exact hor

/-- Witness of C10: both ports constructed and their opening refused with status 0; a
request for the index finger of both hands leaves the state unchanged. -/
theorem C10_no_transport_is_noop_witness :
    both_closed.ApplyFeedback 0 both_index = .ok both_closed ∧
    both_closed.ApplyFeedback 0 both_index = .ok both_closed :=
  ⟨(C10_no_transport_is_noop both_closed 0 both_index).1 rfl rfl,
   (C10_no_transport_is_noop both_closed 0 both_index).2.2.2 closed_port closed_port 0 0
     (by decide) (by decide) rfl rfl rfl rfl⟩

/-! ## Feedback dispatcher: every request, every call -/

theorem transport_open_left_true (s : HapticHandFeedback)
    (h : s.transport_open HapticHand.Left = true) :
    ∃ p, s.leftHandPort = some p ∧ p.IsOpen = true := by
  unfold HapticHandFeedback.transport_open HapticHandFeedback.port at h
  cases hp : s.leftHandPort with
  | none => rw [hp] at h; exact absurd h (by simp)
  | some p => rw [hp] at h; exact ⟨p, rfl, h⟩

theorem transport_open_right_true (s : HapticHandFeedback)
    (h : s.transport_open HapticHand.Right = true) :
    ∃ p, s.rightHandPort = some p ∧ p.IsOpen = true := by
  unfold HapticHandFeedback.transport_open HapticHandFeedback.port at h
  cases hp : s.rightHandPort with
  | none => rw [hp] at h; exact absurd h (by simp)
  | some p => rw [hp] at h; exact ⟨p, rfl, h⟩

/-- The right-hand block always ends without a fault. It leaves the left port and the
left table alone, and it either leaves the right table alone or, the right hand being
named, open and out of cooldown, overwrites the entry of the location. -/
theorem right_block_cases (s : HapticHandFeedback) (now : ℚ) (config : HandFeedbackConfig) :
    ∃ s1, ApplyFeedback_right s now config = .ok s1 ∧
      s1.leftHandPort = s.leftHandPort ∧
      s1.fingerToSendTimeLeft = s.fingerToSendTimeLeft ∧
      s1.transport_open HapticHand.Right = s.transport_open HapticHand.Right ∧
      (s1.fingerToSendTimeRight = s.fingerToSendTimeRight ∨
       (config.Hand ≠ HapticHand.Left ∧ s.transport_open HapticHand.Right = true ∧
        in_cooldown s.fingerToSendTimeRight config.Location now = false ∧
        s1.fingerToSendTimeRight = Function.update s.fingerToSendTimeRight config.Location
          (some (now + config.Duration.val - 1 / 20)))) := by
  by_cases hh : config.Hand = HapticHand.Left
  · exact ⟨s, right_not_named s now config hh, rfl, rfl, rfl, Or.inl rfl⟩
  · cases ht : s.transport_open HapticHand.Right with
    | false => exact ⟨s, right_no_transport s now config ht, rfl, rfl, ht, Or.inl rfl⟩
    | true =>
      obtain ⟨p, hp, ho⟩ := transport_open_right_true s ht
      cases hc : in_cooldown s.fingerToSendTimeRight config.Location now with
      | true => exact ⟨s, right_in_cooldown s now config hc, rfl, rfl, ht, Or.inl rfl⟩
      | false =>
        refine ⟨right_accepted s now config p, right_accept s now config p hh hp ho hc,
          rfl, rfl, ?_, Or.inr ⟨hh, rfl, rfl, rfl⟩⟩
        simp [HapticHandFeedback.transport_open, HapticHandFeedback.port, right_accepted,
          (SendFeedback_of_open p config ho).1]

/-- ApplyFeedback always ends without a fault, and each table is either left alone or
has the entry of the requested location overwritten; a table is overwritten only when
its hand is named, its port is open and the location is out of cooldown on it. -/
theorem ApplyFeedback_cases (s : HapticHandFeedback) (now : ℚ) (config : HandFeedbackConfig) :
    ∃ s1, s.ApplyFeedback now config = .ok s1 ∧
      s1.transport_open HapticHand.Left = s.transport_open HapticHand.Left ∧
      s1.transport_open HapticHand.Right = s.transport_open HapticHand.Right ∧
      (s1.fingerToSendTimeLeft = s.fingerToSendTimeLeft ∨
       (config.Hand ≠ HapticHand.Right ∧ s.transport_open HapticHand.Left = true ∧
        in_cooldown s.fingerToSendTimeLeft config.Location now = false ∧
        s1.fingerToSendTimeLeft = Function.update s.fingerToSendTimeLeft config.Location
          (some (now + config.Duration.val - 1 / 20)))) ∧
      (s1.fingerToSendTimeRight = s.fingerToSendTimeRight ∨
       (config.Hand ≠ HapticHand.Left ∧ s.transport_open HapticHand.Right = true ∧
        in_cooldown s.fingerToSendTimeRight config.Location now = false ∧
        s1.fingerToSendTimeRight = Function.update s.fingerToSendTimeRight config.Location
          (some (now + config.Duration.val - 1 / 20)))) := by
  by_cases hh : config.Hand = HapticHand.Right
  · obtain ⟨s1, h1, h2, h3, h4, h5⟩ := right_block_cases s now config
    refine ⟨s1, by rw [left_not_named s now config hh]; exact h1, ?_, h4, Or.inl h3, h5⟩
    simp [HapticHandFeedback.transport_open, HapticHandFeedback.port, h2]
  · cases ht : s.transport_open HapticHand.Left with
    | false =>
      exact ⟨s, left_no_transport s now config hh ht, ht, rfl, Or.inl rfl, Or.inl rfl⟩
    | true =>
      obtain ⟨p, hp, ho⟩ := transport_open_left_true s ht
      cases hc : in_cooldown s.fingerToSendTimeLeft config.Location now with
      | true =>
        exact ⟨s, left_in_cooldown s now config hh hc, ht, rfl, Or.inl rfl, Or.inl rfl⟩
      | false =>
        obtain ⟨s1, h1, h2, h3, h4, h5⟩ := right_block_cases (left_accepted s now config p)
          now config
        refine ⟨s1, by rw [left_accept s now config p hh hp ho hc]; exact h1, ?_, h4,
          Or.inr ⟨hh, rfl, rfl, h3⟩, h5⟩
        simp [HapticHandFeedback.transport_open, HapticHandFeedback.port, h2, left_accepted,
          (SendFeedback_of_open p config ho).1]

theorem init_map_apply (t : ℚ) (m : FeedbackLocation → Option ℚ) (k : FeedbackLocation) :
    init_map t m k =
      if k = FeedbackLocation.Thumb ∨ k = FeedbackLocation.Index ∨ k = FeedbackLocation.Middle ∨
          k = FeedbackLocation.Ring ∨ k = FeedbackLocation.Pinky then some t else m k := by
  simp only [init_map, map_assign_eq, Function.update_apply]
  by_cases h1 : k = FeedbackLocation.Pinky
  · simp [h1]
  by_cases h2 : k = FeedbackLocation.Ring
  · simp [h1, h2]
  by_cases h3 : k = FeedbackLocation.Middle
  · simp [h1, h2, h3]
  by_cases h4 : k = FeedbackLocation.Index
  · simp [h1, h2, h3, h4]
  by_cases h5 : k = FeedbackLocation.Thumb
  · simp [h1, h2, h3, h4, h5]
  simp [h1, h2, h3, h4, h5]

theorem transport_open_true (s : HapticHandFeedback) (h : HapticHand)
    (ht : s.transport_open h = true) : ∃ p, s.port h = some p ∧ p.IsOpen = true := by
  unfold HapticHandFeedback.transport_open at ht
  cases hp : s.port h with
  | none => rw [hp] at ht; exact absurd ht (by simp)
  | some p => rw [hp] at ht; exact ⟨p, rfl, ht⟩

/-- A request naming one hand leaves the state as it is exactly when the port of that
hand is not usable or the location is in cooldown on that hand. -/
theorem single_hand_noop_iff (s : HapticHandFeedback) (now : ℚ) (config : HandFeedbackConfig)
    (hh : config.Hand ≠ HapticHand.Both) :
    s.ApplyFeedback now config = .ok s ↔
      (s.transport_open config.Hand = false ∨
       in_cooldown (s.table config.Hand) config.Location now = true) := by
  constructor
  · intro he
    by_contra hn
    push_neg at hn
    obtain ⟨h1, h2⟩ := hn
    obtain ⟨p, hp, ho⟩ := transport_open_true s config.Hand (by simpa using h1)
    obtain ⟨s1, e1, ha, _, _⟩ := single_hand_accept_for s now config p hh hp ho (by simpa using h2)
    rw [he] at e1
    exact accepted_for_ne _ _ _ _ _ ha (Except.ok.inj e1).symm
  · rintro (h1 | h2)
    · cases hx : config.Hand with
      | Both => exact absurd hx hh
      | Left =>
        rw [hx] at h1
        exact left_no_transport s now config (by simp [hx]) h1
      | Right =>
        rw [hx] at h1
        rw [left_not_named s now config hx]
        exact right_no_transport s now config h1
    · exact single_hand_drop s now config hh h2

/-- C11: nothing is in cooldown right after Initialize. For each of the five locations L
and each hand h, when the table of h is as the table reset of Initialize at time T0 leaves
it and the port of h is open, the entry of L is T0, and a request for (h, L) at any time
T >= T0, T = T0 included, is accepted: the entry becomes T + duration - 0.05 and the
command is handed to the port of h. -/
theorem C11_first_request_after_Initialize (s : HapticHandFeedback) (T0 T : ℚ)
    (config : HandFeedbackConfig) (p : SerialPortWrapper) (m : FeedbackLocation → Option ℚ)
    (hh : config.Hand ≠ HapticHand.Both)
    (hL : config.Location = FeedbackLocation.Thumb ∨ config.Location = FeedbackLocation.Index ∨
      config.Location = FeedbackLocation.Middle ∨ config.Location = FeedbackLocation.Ring ∨
      config.Location = FeedbackLocation.Pinky)
    (ht : s.table config.Hand = init_map T0 m)
    (hp : s.port config.Hand = some p) (ho : p.IsOpen = true) (hT : T0 ≤ T) :
    s.table config.Hand config.Location = some T0 ∧
    in_cooldown (s.table config.Hand) config.Location T = false ∧
    ∃ s1, s.ApplyFeedback T config = .ok s1 ∧ accepted_for s s1 config.Hand T config := by
  have h0 : s.table config.Hand config.Location = some T0 := by
    rw [ht, init_map_apply, if_pos hL]
  have hc : in_cooldown (s.table config.Hand) config.Location T = false := by
    simp [in_cooldown, h0, hT]
  obtain ⟨s1, h1, h2, _, _⟩ := single_hand_accept_for s T config p hh hp ho hc
  exact ⟨h0, hc, s1, h1, h2⟩

/-- Witness of C11: tables reset at time 10, ports open, and a request for the right pinky
at time 10 exactly. -/
theorem C11_first_request_after_Initialize_witness :
    initialized_open.table HapticHand.Right FeedbackLocation.Pinky = some 10 ∧
    in_cooldown (initialized_open.table HapticHand.Right) FeedbackLocation.Pinky 10 = false ∧
    ∃ s1, initialized_open.ApplyFeedback 10 right_pinky = .ok s1 ∧
      accepted_for initialized_open s1 HapticHand.Right 10 right_pinky :=
  C11_first_request_after_Initialize initialized_open 10 10 right_pinky open_port
    (fun _ => none) (by decide) (Or.inr (Or.inr (Or.inr (Or.inr rfl)))) rfl rfl rfl le_rfl

/-- C12: per-hand, per-location independence as a frame property. A single-hand request
(h, L) always ends without a fault and changes at most the entry of L in the table of h:
the table of the other hand and every entry L2 != L of the table of h are unchanged, and
so is whether each port is usable. Hence for a later single-hand request naming a
different (hand, location) pair, the cooldown test and the outcome (state left as it is,
or request accepted) are the same as if the first request had not been made. -/
theorem C12_single_hand_frame (s : HapticHandFeedback) (now : ℚ) (config : HandFeedbackConfig)
    (hh : config.Hand ≠ HapticHand.Both) :
    ∃ s1, s.ApplyFeedback now config = .ok s1 ∧
      (∀ h2 : HapticHand, h2 ≠ config.Hand → s1.table h2 = s.table h2) ∧
      (∀ L2 : FeedbackLocation, L2 ≠ config.Location →
        s1.table config.Hand L2 = s.table config.Hand L2) ∧
      (∀ h2 : HapticHand, s1.transport_open h2 = s.transport_open h2) ∧
      (∀ (T2 : ℚ) (config2 : HandFeedbackConfig), config2.Hand ≠ HapticHand.Both →
        (config2.Hand ≠ config.Hand ∨ config2.Location ≠ config.Location) →
          in_cooldown (s1.table config2.Hand) config2.Location T2
            = in_cooldown (s.table config2.Hand) config2.Location T2 ∧
          (s1.ApplyFeedback T2 config2 = .ok s1 ↔ s.ApplyFeedback T2 config2 = .ok s)) := by
  obtain ⟨s1, h1, hol, hor, hl, hr⟩ := ApplyFeedback_cases s now config
  have hother : ∀ h2 : HapticHand, h2 ≠ config.Hand → s1.table h2 = s.table h2 := by
    intro h2 hne
    cases h2 with
    | Both => rfl
    | Left =>
      rcases hl with hl | ⟨hnr, _, _, _⟩
      · exact hl
      · exfalso
        cases hx : config.Hand <;> simp_all
    | Right =>
      rcases hr with hr | ⟨hnl, _, _, _⟩
      · exact hr
      · exfalso
        cases hx : config.Hand <;> simp_all
  have hsame : ∀ L2 : FeedbackLocation, L2 ≠ config.Location →
      s1.table config.Hand L2 = s.table config.Hand L2 := by
    intro L2 hne
    cases hx : config.Hand with
    | Both => rfl
    | Left =>
      rcases hl with hl | ⟨_, _, _, hl⟩
      · simp [HapticHandFeedback.table, hl]
      · simp [HapticHandFeedback.table, hl, Function.update_noteq hne]
    | Right =>
      rcases hr with hr | ⟨_, _, _, hr⟩
      · simp [HapticHandFeedback.table, hr]
      · simp [HapticHandFeedback.table, hr, Function.update_noteq hne]
  have hopen : ∀ h2 : HapticHand, s1.transport_open h2 = s.transport_open h2 := by
    intro h2
    cases h2 with
    | Both => rfl
    | Left => exact hol
    | Right => exact hor
  refine ⟨s1, h1, hother, hsame, hopen, ?_⟩
  intro T2 config2 hh2 hdiff
  have hcd : in_cooldown (s1.table config2.Hand) config2.Location T2
      = in_cooldown (s.table config2.Hand) config2.Location T2 := by
    by_cases he : config2.Hand = config.Hand
    · rcases hdiff with hd | hd
      · exact absurd he hd
      · simp only [in_cooldown, he, hsame _ hd]
    · rw [hother _ he]
  refine ⟨hcd, ?_⟩
  rw [single_hand_noop_iff s1 T2 config2 hh2, single_hand_noop_iff s T2 config2 hh2, hcd,
    hopen]

/-- Witness of C12: on a state with both ports open and empty tables, a left-thumb
request at time 10 changes neither the outcome of a right-thumb request nor that of a
left-index request made at time 10. -/
theorem C12_single_hand_frame_witness :
    ∃ s1, both_open.ApplyFeedback 10 left_thumb_1s = .ok s1 ∧
      s1.table HapticHand.Right = both_open.table HapticHand.Right ∧
      s1.table HapticHand.Left FeedbackLocation.Index
        = both_open.table HapticHand.Left FeedbackLocation.Index ∧
      (s1.ApplyFeedback 10 right_thumb_1s = .ok s1 ↔
        both_open.ApplyFeedback 10 right_thumb_1s = .ok both_open) ∧
      (s1.ApplyFeedback 10 left_index_1s = .ok s1 ↔
        both_open.ApplyFeedback 10 left_index_1s = .ok both_open) := by
  obtain ⟨s1, h1, h2, h3, _, h5⟩ := C12_single_hand_frame both_open 10 left_thumb_1s (by decide)
  exact ⟨s1, h1, h2 HapticHand.Right (by decide), h3 FeedbackLocation.Index (by decide),
    (h5 10 right_thumb_1s (by decide) (Or.inl (by decide))).2,
    (h5 10 left_index_1s (by decide) (Or.inr (by decide))).2⟩

/-- C13: Initialize resets both tables. Whatever the tables held before and whatever the
port ids, after Initialize at time T0 the left and the right table map each of Thumb,
Index, Middle, Ring and Pinky to exactly T0. -/
theorem C13_Initialize_resets_tables (s : HapticHandFeedback)
    (leftHandComPort rightHandComPort : Nat) (T0 : ℚ) :
    (s.Initialize leftHandComPort rightHandComPort T0).fingerToSendTimeLeft
      FeedbackLocation.Thumb = some T0 ∧
    (s.Initialize leftHandComPort rightHandComPort T0).fingerToSendTimeLeft
      FeedbackLocation.Index = some T0 ∧
    (s.Initialize leftHandComPort rightHandComPort T0).fingerToSendTimeLeft
      FeedbackLocation.Middle = some T0 ∧
    (s.Initialize leftHandComPort rightHandComPort T0).fingerToSendTimeLeft
      FeedbackLocation.Ring = some T0 ∧
    (s.Initialize leftHandComPort rightHandComPort T0).fingerToSendTimeLeft
      FeedbackLocation.Pinky = some T0 ∧
    (s.Initialize leftHandComPort rightHandComPort T0).fingerToSendTimeRight
      FeedbackLocation.Thumb = some T0 ∧
    (s.Initialize leftHandComPort rightHandComPort T0).fingerToSendTimeRight
      FeedbackLocation.Index = some T0 ∧
    (s.Initialize leftHandComPort rightHandComPort T0).fingerToSendTimeRight
      FeedbackLocation.Middle = some T0 ∧
    (s.Initialize leftHandComPort rightHandComPort T0).fingerToSendTimeRight
      FeedbackLocation.Ring = some T0 ∧
    (s.Initialize leftHandComPort rightHandComPort T0).fingerToSendTimeRight
      FeedbackLocation.Pinky = some T0 := by
  simp only [HapticHandFeedback.Initialize, init_map_apply]
  simp

/-- C14: Close is idempotent and touches only the ports. For every state Close ends
without a fault, a second Close ends without a fault in the same state, after Close both
port pointers are null, so neither hand can transmit, and both tables are as before. -/
theorem C14_Close_idempotent (s : HapticHandFeedback) :
    ∃ s1, s.Close = .ok s1 ∧ s1.Close = .ok s1 ∧
      s1.leftHandPort = none ∧ s1.rightHandPort = none ∧
      s1.transport_open HapticHand.Left = false ∧ s1.transport_open HapticHand.Right = false ∧
      s1.fingerToSendTimeLeft = s.fingerToSendTimeLeft ∧
      s1.fingerToSendTimeRight = s.fingerToSendTimeRight ∧
      (∀ (now : ℚ) (config : HandFeedbackConfig), s1.ApplyFeedback now config = .ok s1) := by
  refine ⟨_, Close_eq s, Close_eq _, rfl, rfl, rfl, rfl, rfl, rfl, ?_⟩
  intro now config
  exact ApplyFeedback_no_transport _ now config rfl rfl

/-- C15: one time sample per call. For a request with hand = Both, both ports open and the
location in cooldown on neither hand, judged at the one instant now, ApplyFeedback ends
without a fault, the left and the right entry of the location are both now + duration -
0.05, and Write is called once on each port with the same 8-byte command. -/
theorem C15_both_hands_same_instant (s : HapticHandFeedback) (now : ℚ)
    (config : HandFeedbackConfig) (pl pr : SerialPortWrapper)
    (hb : config.Hand = HapticHand.Both)
    (hpl : s.leftHandPort = some pl) (hol : pl.IsOpen = true)
    (hpr : s.rightHandPort = some pr) (hor : pr.IsOpen = true)
    (hcl : in_cooldown s.fingerToSendTimeLeft config.Location now = false)
    (hcr : in_cooldown s.fingerToSendTimeRight config.Location now = false) :
    ∃ s1, s.ApplyFeedback now config = .ok s1 ∧
      s1.fingerToSendTimeLeft config.Location = some (now + config.Duration.val - 1 / 20) ∧
      s1.fingerToSendTimeRight config.Location = some (now + config.Duration.val - 1 / 20) ∧
      s1.fingerToSendTimeLeft config.Location = s1.fingerToSendTimeRight config.Location ∧
      s1.calls HapticHand.Left = s.calls HapticHand.Left ++ [SendFeedback_data config] ∧
      s1.calls HapticHand.Right = s.calls HapticHand.Right ++ [SendFeedback_data config] ∧
      accepted_for s s1 HapticHand.Left now config ∧
      accepted_for s s1 HapticHand.Right now config := by
  have he : s.ApplyFeedback now config
      = .ok (right_accepted (left_accepted s now config pl) now config pr) := by
    rw [left_accept s now config pl (by simp [hb]) hpl hol hcl]
    exact right_accept _ now config pr (by simp [hb]) hpr hor hcr
  have e1 : (right_accepted (left_accepted s now config pl) now config pr).fingerToSendTimeLeft
      config.Location = some (now + config.Duration.val - 1 / 20) := by
    simp [right_accepted, left_accepted]
  have e2 : (right_accepted (left_accepted s now config pl) now config pr).fingerToSendTimeRight
      config.Location = some (now + config.Duration.val - 1 / 20) := by
    simp [right_accepted, left_accepted]
  have c1 : (right_accepted (left_accepted s now config pl) now config pr).calls HapticHand.Left
      = s.calls HapticHand.Left ++ [SendFeedback_data config] := by
    simp [HapticHandFeedback.calls, HapticHandFeedback.port, right_accepted, left_accepted, hpl,
      (SendFeedback_of_open pl config hol).2.1]
  have c2 : (right_accepted (left_accepted s now config pl) now config pr).calls HapticHand.Right
      = s.calls HapticHand.Right ++ [SendFeedback_data config] := by
    simp [HapticHandFeedback.calls, HapticHandFeedback.port, right_accepted, left_accepted, hpr,
      (SendFeedback_of_open pr config hor).2.1]
  exact ⟨_, he, e1, e2, e1.trans e2.symm, c1, c2, ⟨e1, c1⟩, ⟨e2, c2⟩⟩

/-- Witness of C15: both ports open, empty tables, and a request for the index finger of
both hands at time 0. -/
theorem C15_both_hands_same_instant_witness :
    ∃ s1, both_open.ApplyFeedback 0 both_index = .ok s1 ∧
      s1.fingerToSendTimeLeft FeedbackLocation.Index
        = s1.fingerToSendTimeRight FeedbackLocation.Index ∧
      s1.calls HapticHand.Left = [SendFeedback_data both_index] ∧
      s1.calls HapticHand.Right = [SendFeedback_data both_index] := by
  obtain ⟨s1, h1, _, _, h4, h5, h6, _, _⟩ := C15_both_hands_same_instant both_open 0 both_index
    open_port open_port rfl rfl rfl rfl rfl rfl rfl
  exact ⟨s1, h1, h4, h5, h6⟩

/-- C16: a location absent from the table of a hand is always eligible. For a hand with an
open port, a location code that is not a key of its table, and any time now, the cooldown
test is false without touching the table (no entry is default-inserted and compared), and
the request is accepted: the location is inserted with value now + duration - 0.05, the
other entries are kept, and the command is handed to the port. -/
theorem C16_absent_location_eligible (s : HapticHandFeedback) (now : ℚ)
    (config : HandFeedbackConfig) (p : SerialPortWrapper)
    (hh : config.Hand ≠ HapticHand.Both)
    (hp : s.port config.Hand = some p) (ho : p.IsOpen = true)
    (habs : s.table config.Hand config.Location = none) :
    cooldown_test (s.table config.Hand) config.Location now = (s.table config.Hand, false) ∧
    ∃ s1, s.ApplyFeedback now config = .ok s1 ∧ accepted_for s s1 config.Hand now config ∧
      s1.table config.Hand = Function.update (s.table config.Hand) config.Location
        (some (now + config.Duration.val - 1 / 20)) := by
  have hc : in_cooldown (s.table config.Hand) config.Location now = false := by
    simp [in_cooldown, habs]
  refine ⟨by rw [cooldown_test_eq, hc], ?_⟩
  obtain ⟨s1, h1, h2, h3, _⟩ := single_hand_accept_for s now config p hh hp ho hc
  exact ⟨s1, h1, h2, h3⟩

/-- Witness of C16: the location code 3 on the left hand, absent from the empty table, at
the time -1, which lies before the value 0 a default insertion would have stored. -/
theorem C16_absent_location_eligible_witness :
    cooldown_test (both_open.table HapticHand.Left) left_code_3.Location (-1)
      = (both_open.table HapticHand.Left, false) ∧
    ∃ s1, both_open.ApplyFeedback (-1) left_code_3 = .ok s1 ∧
      accepted_for both_open s1 HapticHand.Left (-1) left_code_3 ∧
      s1.table HapticHand.Left = Function.update (both_open.table HapticHand.Left)
        left_code_3.Location (some (-1 + left_code_3.Duration.val - 1 / 20)) :=
  C16_absent_location_eligible both_open (-1) left_code_3 open_port (by decide) rfl rfl rfl

/-- C17: short pulses are never throttled, over exact arithmetic. A single-hand request
with duration d <= 0.05 (zero and negative included) accepted at time T stores
T + d - 0.05, which is <= T, so every following request for the same hand and location at
any time T2 >= T is accepted. When the entry was T and d < 0.05 the new entry is strictly
smaller than the old one: the stored time stamp is not monotone. -/
theorem C17_short_pulses_not_throttled (s : HapticHandFeedback) (T : ℚ)
    (config : HandFeedbackConfig) (p : SerialPortWrapper)
    (hh : config.Hand ≠ HapticHand.Both)
    (hp : s.port config.Hand = some p) (ho : p.IsOpen = true)
    (hc : in_cooldown (s.table config.Hand) config.Location T = false)
    (hd : config.Duration.val ≤ 1 / 20) :
    ∃ s1, s.ApplyFeedback T config = .ok s1 ∧
      s1.table config.Hand config.Location = some (T + config.Duration.val - 1 / 20) ∧
      T + config.Duration.val - 1 / 20 ≤ T ∧
      (∀ (T2 : ℚ) (config2 : HandFeedbackConfig), T ≤ T2 →
        config2.Hand = config.Hand → config2.Location = config.Location →
          ∃ s2, s1.ApplyFeedback T2 config2 = .ok s2 ∧
            accepted_for s1 s2 config.Hand T2 config2) ∧
      (s.table config.Hand config.Location = some T → config.Duration.val < 1 / 20 →
        ∃ old new, s.table config.Hand config.Location = some old ∧
          s1.table config.Hand config.Location = some new ∧ new < old) := by
  obtain ⟨s1, h1, _, h2, h3⟩ := single_hand_accept_for s T config p hh hp ho hc
  have ho1 := (SendFeedback_of_open p config ho).1
  have hst : s1.table config.Hand config.Location = some (T + config.Duration.val - 1 / 20) := by
    rw [h2]; simp
  refine ⟨s1, h1, hst, by linarith, ?_, ?_⟩
  · intro T2 config2 hT e1 e2
    have := (request_on_stored s1 (T + config.Duration.val - 1 / 20) T2 config2
      (SendFeedback p config) (by rw [e1]; exact hh) (by rw [e1, e2]; exact hst)
      (by rw [e1]; exact h3) ho1).2 (by intro hgt; linarith)
    rw [e1] at this
    exact this
  · intro hold hlt
    exact ⟨T, _, hold, hst, by linarith⟩

/-- Witness of C17: the left thumb holds 10; a request of duration 0 at time 10 is
accepted, lowers the entry to 10 - 0.05, and the same request at time 10 is accepted
again. -/
theorem C17_short_pulses_not_throttled_witness :
    ∃ s1, left_thumb_at_10.ApplyFeedback 10 left_thumb_0s = .ok s1 ∧
      (∃ s2, s1.ApplyFeedback 10 left_thumb_0s = .ok s2 ∧
        accepted_for s1 s2 HapticHand.Left 10 left_thumb_0s) ∧
      ∃ old new, left_thumb_at_10.table HapticHand.Left FeedbackLocation.Thumb = some old ∧
        s1.table HapticHand.Left FeedbackLocation.Thumb = some new ∧ new < old := by
  have hc : in_cooldown (left_thumb_at_10.table left_thumb_0s.Hand) left_thumb_0s.Location 10
      = false := by
    simp [in_cooldown, left_thumb_at_10, left_thumb_0s, HapticHandFeedback.table]
  obtain ⟨s1, h1, _, _, h4, h5⟩ := C17_short_pulses_not_throttled left_thumb_at_10 10
    left_thumb_0s open_port (by decide) rfl rfl hc (by norm_num [left_thumb_0s, float_0_0])
  refine ⟨s1, h1, h4 10 left_thumb_0s le_rfl rfl rfl, h5 ?_ ?_⟩
  · simp [left_thumb_at_10, left_thumb_0s, HapticHandFeedback.table]
  · norm_num [left_thumb_0s, float_0_0]

theorem update_keeps_keys (m : FeedbackLocation → Option ℚ) (L k : FeedbackLocation) (v : ℚ)
    (h : (m k).isSome = true) : (Function.update m L (some v) k).isSome = true := by
  by_cases hk : k = L
  · rw [hk, Function.update_same]
    rfl
  · rw [Function.update_noteq hk]
    exact h

theorem init_map_keeps_keys (t : ℚ) (m : FeedbackLocation → Option ℚ) (k : FeedbackLocation)
    (h : (m k).isSome = true) : (init_map t m k).isSome = true := by
  rw [init_map_apply]
  split
  · rfl
  · exact h

theorem init_map_has_five_keys (t : ℚ) (m : FeedbackLocation → Option ℚ) :
    has_five_keys (init_map t m) := by
  unfold has_five_keys
  simp [init_map_apply]

/-- No call faults, and no call removes a key from either table. -/
theorem call_keeps_keys (s : HapticHandFeedback) (c : Call) :
    ∃ s1, call s c = .ok s1 ∧
      (∀ k, (s.fingerToSendTimeLeft k).isSome = true →
        (s1.fingerToSendTimeLeft k).isSome = true) ∧
      (∀ k, (s.fingerToSendTimeRight k).isSome = true →
        (s1.fingerToSendTimeRight k).isSome = true) := by
  cases c with
  | Initialize l r t =>
    exact ⟨_, rfl, fun k h => init_map_keeps_keys t _ k h, fun k h => init_map_keeps_keys t _ k h⟩
  | Close =>
    exact ⟨_, Close_eq s, fun _ h => h, fun _ h => h⟩
  | ApplyFeedback now config =>
    obtain ⟨s1, h1, _, _, hl, hr⟩ := ApplyFeedback_cases s now config
    refine ⟨s1, h1, ?_, ?_⟩
    · intro k hk
      rcases hl with hl | ⟨_, _, _, hl⟩
      · rw [hl]; exact hk
      · rw [hl]; exact update_keeps_keys _ _ _ _ hk
    · intro k hk
      rcases hr with hr | ⟨_, _, _, hr⟩
      · rw [hr]; exact hk
      · rw [hr]; exact update_keeps_keys _ _ _ _ hk

theorem run_keeps_five_keys (calls : List Call) :
    ∀ s : HapticHandFeedback, has_five_keys s.fingerToSendTimeLeft →
      has_five_keys s.fingerToSendTimeRight →
      ∃ s1, run s calls = .ok s1 ∧ has_five_keys s1.fingerToSendTimeLeft ∧
        has_five_keys s1.fingerToSendTimeRight := by
  induction calls with
  | nil => exact fun s hl hr => ⟨s, rfl, hl, hr⟩
  | cons c cs ih =>
    intro s hl hr
    obtain ⟨s1, h1, kl, kr⟩ := call_keeps_keys s c
    obtain ⟨s2, h2, hl2, hr2⟩ := ih s1
      ⟨kl _ hl.1, kl _ hl.2.1, kl _ hl.2.2.1, kl _ hl.2.2.2.1, kl _ hl.2.2.2.2⟩
      ⟨kr _ hr.1, kr _ hr.2.1, kr _ hr.2.2.1, kr _ hr.2.2.2.1, kr _ hr.2.2.2.2⟩
    refine ⟨s2, ?_, hl2, hr2⟩
    simp only [run, h1]
    exact h2

/-- C18: key-set invariant of the cooldown tables. Starting from any state, a run that
begins with Initialize and continues with any sequence of Initialize, Close and
ApplyFeedback calls ends without a fault in a state whose left and right tables both hold
Thumb, Index, Middle, Ring and Pinky as keys. No call removes a key from either table,
and an ApplyFeedback leaves the table of a hand exactly as it was, key set included, when
that hand is not named, its port is not usable, or the location is in cooldown on it. -/
theorem C18_key_set_invariant :
    (∀ (s0 : HapticHandFeedback) (l r : Nat) (t : ℚ) (calls : List Call),
      ∃ s, run s0 (Call.Initialize l r t :: calls) = .ok s ∧
        has_five_keys s.fingerToSendTimeLeft ∧ has_five_keys s.fingerToSendTimeRight) ∧
    (∀ (s : HapticHandFeedback) (c : Call),
      ∃ s1, call s c = .ok s1 ∧
        (∀ k, (s.fingerToSendTimeLeft k).isSome = true →
          (s1.fingerToSendTimeLeft k).isSome = true) ∧
        (∀ k, (s.fingerToSendTimeRight k).isSome = true →
          (s1.fingerToSendTimeRight k).isSome = true)) ∧
    (∀ (s : HapticHandFeedback) (now : ℚ) (config : HandFeedbackConfig),
      ∃ s1, s.ApplyFeedback now config = .ok s1 ∧
        ((config.Hand = HapticHand.Right ∨ s.transport_open HapticHand.Left = false ∨
            in_cooldown s.fingerToSendTimeLeft config.Location now = true) →
          s1.fingerToSendTimeLeft = s.fingerToSendTimeLeft) ∧
        ((config.Hand = HapticHand.Left ∨ s.transport_open HapticHand.Right = false ∨
            in_cooldown s.fingerToSendTimeRight config.Location now = true) →
          s1.fingerToSendTimeRight = s.fingerToSendTimeRight)) := by
  refine ⟨?_, call_keeps_keys, ?_⟩
  · intro s0 l r t calls
    obtain ⟨s, h, hl, hr⟩ := run_keeps_five_keys calls (s0.Initialize l r t)
      (init_map_has_five_keys t _) (init_map_has_five_keys t _)
    exact ⟨s, by simpa [run, call] using h, hl, hr⟩
  · intro s now config
    obtain ⟨s1, h1, _, _, hl, hr⟩ := ApplyFeedback_cases s now config
    refine ⟨s1, h1, ?_, ?_⟩
    · intro hcase
      rcases hl with hl | ⟨a, b, c, _⟩
      · exact hl
      · rcases hcase with h | h | h
        · exact absurd h a
        · rw [b] at h; exact absurd h (by simp)
        · rw [c] at h; exact absurd h (by simp)
    · intro hcase
      rcases hr with hr | ⟨a, b, c, _⟩
      · exact hr
      · rcases hcase with h | h | h
        · exact absurd h a
        · rw [b] at h; exact absurd h (by simp)
        · rw [c] at h; exact absurd h (by simp)

end HapticSoftware
